/-
  Verification of the graphzep temporal knowledge-graph memory engine.

  This file shallowly embeds the parts of the TypeScript sources that the
  checked properties are about:

    * src/graphzep.ts        — addEpisode relation processing, conflict
                               resolution, retroactiveDays, entity-candidate
                               fetching, temporal re-ranking of search results
    * src/core/nodes.ts      — EpisodicNodeImpl.save and re-materialisation
    * src/core/edges.ts      — EntityEdgeImpl.save
    * src/drivers/neo4j.ts   — numeric parameter marshalling
    * src/sleep/consolidator.ts, pruner, community-builder, engine.ts
                             — the three sleep phases and dry-run behaviour

  Modelling conventions:
    * TS strings are `List Char` (`Str`); timestamps are milliseconds (`Int`);
      JS numbers that only ever hold rationals and feed exact comparisons are
      `ℚ`; embedding vectors and similarity scores are `ℝ` (idealised reals,
      like the spec's formulas).
    * The graph store is an explicit record of node/edge property lists; a
      Cypher statement becomes a pure function on that record, translated
      clause by clause.
    * The LLM and the embedder are deterministic oracle functions supplied as
      parameters (a failing structured call is an oracle returning `none`).
    * `uuidv4()` is modelled by an explicit supply of fresh identifiers.
-/
import Mathlib

namespace Graphzep

/-- Character-list model of a TypeScript string. -/
abbrev Str := List Char

/-- Milliseconds since epoch, the value of `Date.getTime()`. -/
abbrev Millis := Int

/-- Model of `s.startsWith(t)` on character lists. -/
def listStartsWith : Str → Str → Bool
  | _, [] => true
  | [], _ :: _ => false
  | a :: as, b :: bs => a = b && listStartsWith as bs

/-- Model of the Cypher `CONTAINS` substring test on character lists. -/
def listContainsSub : Str → Str → Bool
  | [], t => t.isEmpty
  | a :: as, t => listStartsWith (a :: as) t || listContainsSub as t

/-- Model of Cypher `toLower` / JS `toLowerCase`. -/
def strToLower (s : Str) : Str := s.map Char.toLower

/-- Lexicographic string comparison, the order behind `a.uuid < b.uuid`. -/
def strLt : Str → Str → Bool
  | [], [] => false
  | [], _ :: _ => true
  | _ :: _, [] => false
  | a :: as, b :: bs => if a = b then strLt as bs else a < b

/-! ## Stored node and edge records (property maps in the graph store)

The fields are exactly the properties the TypeScript `save` methods write,
plus the properties other statements of the code base set directly
(`consolidatedAt`, episode `disputedBy`). `Option` marks properties that may
be absent (`null`) in the store. -/

/-- Stored `Entity` node (core/nodes.ts `EntityNodeImpl.save` plus the
`consolidatedAt` property written by the sleep consolidator). -/
structure EntityRec where
  uuid : Str
  name : Str
  groupId : Str
  entityType : Str
  summary : Str
  summaryEmbedding : Option (List ℝ)
  embedding : Option (List ℝ)
  factIds : List Str
  createdAt : Millis
  consolidatedAt : Option Millis

/-- Stored `Episodic` node (core/nodes.ts `EpisodicNodeImpl.save` plus the
`disputedBy` property written by `_resolveConflict` and the `consolidatedAt`
property written by the sleep consolidator; `retroactiveDays` is kept as a
field of the property map so that the fact that nothing ever writes it is
expressible). -/
structure EpisodeRec where
  uuid : Str
  name : Str
  groupId : Str
  episodeType : Str
  content : Str
  embedding : Option (List ℝ)
  validAt : Millis
  invalidAt : Option Millis
  referenceId : Option Str
  createdAt : Millis
  consolidatedAt : Option Millis
  disputedBy : Option (List Str)
  retroactiveDays : Option ℚ

/-- Stored `RELATES_TO` edge (core/edges.ts `EntityEdgeImpl.save`). -/
structure RelEdge where
  uuid : Str
  groupId : Str
  source : Str
  target : Str
  name : Str
  factIds : List Str
  episodes : List Str
  validAt : Millis
  invalidAt : Option Millis
  expiredAt : Option Millis
  createdAt : Millis
  disputedBy : List Str
deriving DecidableEq

/-- Stored `MENTIONS` edge (core/edges.ts `EpisodicEdgeImpl.save`). -/
structure MentionEdge where
  uuid : Str
  source : Str
  target : Str
  groupId : Str
  createdAt : Millis
deriving DecidableEq

/-- Stored `Community` node (community-builder upsert). -/
structure CommunityRec where
  uuid : Str
  groupId : Str
  name : Str
  communityLevel : Int
  summary : Str
  summaryEmbedding : Option (List ℝ)
  embedding : Option (List ℝ)
  memberEntityIds : List Str
  memberCount : Nat
  domainHints : List Str
  importanceScore : ℚ
  entityCountAtLastRebuild : Option Int
  lastFullRebuild : Option Millis
  createdAt : Millis

/-- Stored `HAS_MEMBER` edge. -/
structure HasMemberEdge where
  uuid : Str
  source : Str
  target : Str
  groupId : Str
deriving DecidableEq

/-- The whole driver-backed graph store, per property label. -/
structure GraphState where
  entities : List EntityRec
  episodes : List EpisodeRec
  rels : List RelEdge
  mentions : List MentionEdge
  communities : List CommunityRec
  hasMember : List HasMemberEdge

/-! ## Ingestion: relation processing (graphzep.ts 431–602) -/

/-- `temporalValidity` enum of an extracted relation. -/
inductive TemporalValidity where
  | current
  | historical
deriving DecidableEq

/-- `ExtractedRelation` (graphzep.ts 102–110); optional fields carry the
defaults applied at the use sites via `??`. -/
structure ExtractedRelation where
  sourceName : Str
  targetName : Str
  relationName : Str
  confidence : Option ℚ
  isNegated : Option Bool
  temporalValidity : Option TemporalValidity

/-- `RELATION_CONFIDENCE_THRESHOLD = 0.5` (graphzep.ts 92); written with
`mkRat` so that kernel reduction of comparisons works. -/
def RELATION_CONFIDENCE_THRESHOLD : ℚ := mkRat 1 2

/-- Lookup in the `Map` built by
`new Map(entities.map((e) => [e.name, e]))` (graphzep.ts 437): a JS map keeps
the last binding for a repeated key. -/
def entityMapGet (entities : List EntityRec) (n : Str) : Option EntityRec :=
  entities.reverse.find? (fun e => decide (e.name = n))

/-- Whether an `Entity` node with the given uuid exists (the `MATCH` clause of
`EntityEdgeImpl.save`). -/
def entityWithUuid (s : GraphState) (u : Str) : Bool :=
  s.entities.any (fun en => decide (en.uuid = u))

/-- `EntityEdgeImpl.save` (core/edges.ts 125–158):
`MATCH (source:Entity {uuid}) MATCH (target:Entity {uuid})
 MERGE (source)-[e:RELATES_TO {uuid}]->(target) SET …` — if either endpoint is
missing nothing happens; otherwise the edge with this uuid between the two
endpoints is overwritten with the record's properties, or created. -/
def saveRelEdge (s : GraphState) (e : RelEdge) : GraphState :=
  if entityWithUuid s e.source && entityWithUuid s e.target then
    if s.rels.any (fun r => decide (r.uuid = e.uuid ∧ r.source = e.source ∧ r.target = e.target)) then
      { s with rels := s.rels.map (fun r =>
          if r.uuid = e.uuid ∧ r.source = e.source ∧ r.target = e.target then e else r) }
    else
      { s with rels := s.rels ++ [e] }
  else s

/-- `findExistingRelation` (graphzep.ts 569–602): first `RELATES_TO` edge with
the given endpoints and relation name (no groupId condition in that query).
The materialised `EntityEdgeImpl` carries the stored properties except
`disputedBy`, which the constructor call omits; saving it therefore writes
`disputedBy = []`. -/
def findExistingRelation (s : GraphState) (sourceUuid targetUuid relationName : Str) : Option RelEdge :=
  s.rels.find? (fun e =>
    decide (e.source = sourceUuid ∧ e.target = targetUuid ∧ e.name = relationName))

/-- The `MATCH` of `_resolveConflict` (graphzep.ts 520–529): an active
(`invalidAt IS NULL`) positive edge between the two entities, both required to
carry the episode's groupId. -/
def findConflictEdge (s : GraphState) (sourceUuid targetUuid relationName gid : Str) : Option RelEdge :=
  if (s.entities.any (fun en => decide (en.uuid = sourceUuid ∧ en.groupId = gid))) &&
     (s.entities.any (fun en => decide (en.uuid = targetUuid ∧ en.groupId = gid))) then
    s.rels.find? (fun e =>
      decide (e.source = sourceUuid ∧ e.target = targetUuid ∧ e.name = relationName ∧
              e.invalidAt = none))
  else none

/-- `_resolveConflict` (graphzep.ts 512–567).  When the active positive edge
exists: the new episode's uuid is appended to the edge's `disputedBy` unless
already present (one `SET` statement matching the edge by uuid), and — when
the edge has a non-empty `episodes` list — the new episode's `disputedBy`
property is `SET` to that list (an overwrite, not a union). -/
def resolveConflict (s : GraphState) (source target : EntityRec)
    (relationName newEpisodeUuid gid : Str) : GraphState × Bool :=
  match findConflictEdge s source.uuid target.uuid relationName gid with
  | none => (s, false)
  | some e =>
    let edgeDisputedBy :=
      if newEpisodeUuid ∈ e.disputedBy then e.disputedBy else e.disputedBy ++ [newEpisodeUuid]
    let s1 : GraphState :=
      { s with rels := s.rels.map (fun r =>
          if r.uuid = e.uuid then { r with disputedBy := edgeDisputedBy } else r) }
    let s2 : GraphState :=
      if e.episodes.isEmpty then s1
      else
        { s1 with episodes := s1.episodes.map (fun ep =>
            if ep.uuid = newEpisodeUuid then { ep with disputedBy := some e.episodes } else ep) }
    (s2, true)

/-- One iteration of the `for (const relation of relations)` loop of
`processExtractedRelations` (graphzep.ts 439–503).  `freshUuid` is the value
`uuidv4()` would produce for an edge created in this iteration. -/
def processRelation (entities : List EntityRec) (gid episodeUuid : Str) (now : Millis)
    (freshUuid : Str) (s : GraphState) (relation : ExtractedRelation) : GraphState :=
  if relation.confidence.getD 1 < RELATION_CONFIDENCE_THRESHOLD then s
  else if relation.isNegated.getD false then
    match entityMapGet entities relation.sourceName, entityMapGet entities relation.targetName with
    | some source, some target =>
      (resolveConflict s source target relation.relationName episodeUuid gid).1
    | _, _ => s
  else
    match entityMapGet entities relation.sourceName, entityMapGet entities relation.targetName with
    | some source, some target =>
      match findExistingRelation s source.uuid target.uuid relation.relationName with
      | some existingEdge =>
        if relation.temporalValidity.getD .current = .historical then
          if existingEdge.invalidAt = none then
            saveRelEdge s { existingEdge with invalidAt := some now, disputedBy := [] }
          else s
        else
          let episodes1 :=
            if episodeUuid ∈ existingEdge.episodes then existingEdge.episodes
            else existingEdge.episodes ++ [episodeUuid]
          saveRelEdge s { existingEdge with episodes := episodes1, validAt := now, disputedBy := [] }
      | none =>
        saveRelEdge s
          { uuid := freshUuid
            groupId := gid
            source := source.uuid
            target := target.uuid
            name := relation.relationName
            factIds := []
            episodes := [episodeUuid]
            validAt := now
            invalidAt :=
              if relation.temporalValidity.getD .current = .historical then some now else none
            expiredAt := none
            createdAt := now
            disputedBy := [] }
    | _, _ => s

/-- The loop of `processExtractedRelations`, with an indexed supply of fresh
edge uuids. -/
def processRelationsGo (entities : List EntityRec) (gid episodeUuid : Str) (now : Millis)
    (fresh : Nat → Str) : GraphState → List ExtractedRelation → Nat → GraphState
  | s, [], _ => s
  | s, r :: rest, i =>
    processRelationsGo entities gid episodeUuid now fresh
      (processRelation entities gid episodeUuid now (fresh i) s r) rest (i + 1)

/-- `processExtractedRelations` (graphzep.ts 431–504). -/
def processExtractedRelations (s : GraphState) (relations : List ExtractedRelation)
    (entities : List EntityRec) (gid episodeUuid : Str) (now : Millis)
    (fresh : Nat → Str) : GraphState :=
  processRelationsGo entities gid episodeUuid now fresh s relations 0

/-! ## addEpisode: retroactiveDays (graphzep.ts 167–190) -/

/-- JS `Math.round` on an exact rational: round half toward `+∞`. -/
def jsRound (q : ℚ) : ℤ := ⌊q + 1 / 2⌋

/-- The `retroactiveDays` computation of `addEpisode` (graphzep.ts 171–174):
`Math.max(0, Math.round((createdAt.getTime() - validAt.getTime()) / 86_400_000))`. -/
def retroactiveDaysOf (createdAtMs validAtMs : Millis) : ℤ :=
  max 0 (jsRound (((createdAtMs - validAtMs : ℤ) : ℚ) / 86400000))

/-- The spec's formula for `retroactiveDays`, as the claim states it:
`max(0, floor((created_at − valid_at) / 86400 s))`. -/
def specRetroactiveDays (createdAtMs validAtMs : Millis) : ℤ :=
  max 0 ⌊((createdAtMs - validAtMs : ℤ) : ℚ) / 86400000⌋

/-! ## Concrete fixtures used by witnesses and counterexamples -/

/-- Test group id. -/
def gidT : Str := [ 'g' ]

/-- Entity fixture `A`. -/
def entA : EntityRec :=
  { uuid := [ 'a' ], name := [ 'A' ], groupId := gidT, entityType := [ 'P' ],
    summary := [], summaryEmbedding := none, embedding := none, factIds := [],
    createdAt := 0, consolidatedAt := none }

/-- Entity fixture `B`. -/
def entB : EntityRec :=
  { entA with uuid := [ 'b' ], name := [ 'B' ] }

/-- Entity fixture `C`. -/
def entC : EntityRec :=
  { entA with uuid := [ 'c' ], name := [ 'C' ] }

/-- Episode uuid fixtures. -/
def epU : Str := [ 'e', 'p' ]

/-- Supporting episode uuid of the first fixture edge. -/
def p1U : Str := [ 'p', '1' ]

/-- Supporting episode uuid of the second fixture edge. -/
def p2U : Str := [ 'p', '2' ]

/-- Active positive edge fixture `(A)-[R]->(B)` supported by episode `p1`. -/
def edge1 : RelEdge :=
  { uuid := [ 'e', '1' ], groupId := gidT, source := entA.uuid, target := entB.uuid,
    name := [ 'R' ], factIds := [], episodes := [p1U], validAt := 0, invalidAt := none,
    expiredAt := none, createdAt := 0, disputedBy := [] }

/-- Active positive edge fixture `(A)-[S]->(C)` supported by episode `p2`. -/
def edge2 : RelEdge :=
  { edge1 with uuid := [ 'e', '2' ], target := entC.uuid, name := [ 'S' ], episodes := [p2U] }

/-- Freshly saved episode fixture (its `disputedBy` property is absent, since
`EpisodicNodeImpl.save` never writes it). -/
def epRec : EpisodeRec :=
  { uuid := epU, name := [], groupId := gidT, episodeType := [ 't' ], content := [],
    embedding := none, validAt := 100, invalidAt := none, referenceId := none,
    createdAt := 100, consolidatedAt := none, disputedBy := none, retroactiveDays := none }

/-- Graph fixture with entities `A,B,C`, the two active edges, and the new episode. -/
def stateC1 : GraphState :=
  { entities := [entA, entB, entC], episodes := [epRec], rels := [edge1, edge2],
    mentions := [], communities := [], hasMember := [] }

/-- Negated extracted relation fixture disputing `(A)-[R]->(B)`. -/
def relNeg1 : ExtractedRelation :=
  { sourceName := entA.name, targetName := entB.name, relationName := [ 'R' ],
    confidence := none, isNegated := some true, temporalValidity := none }

/-- Negated extracted relation fixture disputing `(A)-[S]->(C)`. -/
def relNeg2 : ExtractedRelation :=
  { sourceName := entA.name, targetName := entC.name, relationName := [ 'S' ],
    confidence := none, isNegated := some true, temporalValidity := none }

/-- Result of processing the two negated relations of the same episode. -/
def stateC1After : GraphState :=
  processExtractedRelations stateC1 [relNeg1, relNeg2] [entA, entB, entC] gidT epU 100
    (fun _ => [ 'x' ])

/-! ## Claims C1–C4 -/

/-- C1 (counterexample): in one `add_episode`, two negated relations each meet
an active positive edge (`edge1` supported by `p1`, `edge2` supported by `p2`);
the claim says every uuid in each disputed edge's `episodes` list is added to
the new episode's `disputed_by`, but the second `SET` overwrites the first, so
`p1` is missing from the episode's final `disputed_by`. -/
theorem c1_disputes_overwritten_counterexample :
    (RELATION_CONFIDENCE_THRESHOLD ≤ relNeg1.confidence.getD 1) ∧
    relNeg1.isNegated.getD false = true ∧
    ((entityMapGet [entA, entB, entC] relNeg1.sourceName).map (fun e => e.uuid) = some entA.uuid) ∧
    ((entityMapGet [entA, entB, entC] relNeg1.targetName).map (fun e => e.uuid) = some entB.uuid) ∧
    findConflictEdge stateC1 entA.uuid entB.uuid relNeg1.relationName gidT = some edge1 ∧
    p1U ∈ edge1.episodes ∧
    (stateC1After.episodes.map (fun ep => ep.disputedBy)) = [some [p2U]] ∧
    p1U ∉ [p2U] := by
  decide

/-- C1 (amended): when a negated relation meets an active positive edge, the
new episode's uuid is added to the edge's `disputedBy` without duplicates and
the edge is neither deleted nor invalidated (all its other properties are
preserved); but the new episode's `disputedBy` is *set* to the edge's
`episodes` list (overwriting any previous value) rather than added to. -/
theorem c1_conflict_resolution_amended
    (s : GraphState) (source target : EntityRec) (relationName newEpisodeUuid gid : Str)
    (e : RelEdge)
    (hfound : findConflictEdge s source.uuid target.uuid relationName gid = some e) :
    ((resolveConflict s source target relationName newEpisodeUuid gid).1.rels.length
        = s.rels.length) ∧
    (∀ r ∈ s.rels, r.uuid ≠ e.uuid →
        r ∈ (resolveConflict s source target relationName newEpisodeUuid gid).1.rels) ∧
    (∀ r ∈ s.rels, r.uuid = e.uuid →
        { r with disputedBy :=
            if newEpisodeUuid ∈ e.disputedBy then e.disputedBy
            else e.disputedBy ++ [newEpisodeUuid] }
          ∈ (resolveConflict s source target relationName newEpisodeUuid gid).1.rels) ∧
    (newEpisodeUuid ∈
        (if newEpisodeUuid ∈ e.disputedBy then e.disputedBy
         else e.disputedBy ++ [newEpisodeUuid])) ∧
    (e.disputedBy.Nodup →
        (if newEpisodeUuid ∈ e.disputedBy then e.disputedBy
         else e.disputedBy ++ [newEpisodeUuid]).Nodup) ∧
    (e.episodes ≠ [] → ∀ ep ∈ s.episodes, ep.uuid = newEpisodeUuid →
        { ep with disputedBy := some e.episodes }
          ∈ (resolveConflict s source target relationName newEpisodeUuid gid).1.episodes) ∧
    (e.episodes = [] →
        (resolveConflict s source target relationName newEpisodeUuid gid).1.episodes
          = s.episodes) ∧
    ((resolveConflict s source target relationName newEpisodeUuid gid).1.entities
        = s.entities) := by
  unfold resolveConflict
  rw [hfound]
  simp only []
  refine ⟨?_, ?_, ?_, ?_, ?_, ?_, ?_, ?_⟩
  · by_cases hemp : e.episodes.isEmpty <;> simp [hemp]
  · intro r hr hne
    by_cases hemp : e.episodes.isEmpty <;>
      · simp only [hemp, if_pos, if_neg, Bool.false_eq_true, ite_false, ite_true]
        exact List.mem_map.mpr ⟨r, hr, by simp [hne]⟩
  · intro r hr heq
    by_cases hemp : e.episodes.isEmpty <;>
      · simp only [hemp, Bool.false_eq_true, ite_false, ite_true]
        exact List.mem_map.mpr ⟨r, hr, by simp [heq]⟩
  · split <;> simp_all
  · intro hnd
    split
    · exact hnd
    · next hmem => exact List.Nodup.append hnd (by simp) (by simp [hmem])
  · intro hne ep hep heq
    have hemp : e.episodes.isEmpty = false := by
      simpa [List.isEmpty_iff] using hne
    simp only [hemp, Bool.false_eq_true, ite_false]
    exact List.mem_map.mpr ⟨ep, hep, by simp [heq]⟩
  · intro hemp
    simp [hemp]
  · by_cases hemp : e.episodes.isEmpty <;> simp [hemp]

/-- C1 (witness for the amended theorem): instantiated on the concrete fixture
conflict between the new episode and `edge1`. -/
theorem c1_conflict_resolution_amended_witness :
    { edge1 with disputedBy := [epU] }
      ∈ (resolveConflict stateC1 entA entB edge1.name epU gidT).1.rels ∧
    { epRec with disputedBy := some [p1U] }
      ∈ (resolveConflict stateC1 entA entB edge1.name epU gidT).1.episodes := by
  have h := c1_conflict_resolution_amended stateC1 entA entB edge1.name epU gidT edge1
    (by decide)
  refine ⟨?_, ?_⟩
  · have h3 := h.2.2.1 edge1 (by decide) rfl
    simpa using h3
  · have h6 := h.2.2.2.2.2.1 (by decide) epRec (by simp [stateC1]) rfl
    simpa using h6

/-- C2: processing a negated extracted relation whose active positive
counterpart edge (same source, target and relation name with
`invalidAt = null`) is absent leaves the graph state unchanged — no
`RELATES_TO` edge is created and no node or edge is mutated. -/
theorem c2_negated_without_counterpart_is_noop
    (s : GraphState) (entities : List EntityRec) (gid episodeUuid : Str) (now : Millis)
    (freshUuid : Str) (relation : ExtractedRelation)
    (hneg : relation.isNegated.getD false = true)
    (habsent : ∀ source target : EntityRec,
      entityMapGet entities relation.sourceName = some source →
      entityMapGet entities relation.targetName = some target →
      ∀ e ∈ s.rels, ¬(e.source = source.uuid ∧ e.target = target.uuid ∧
        e.name = relation.relationName ∧ e.invalidAt = none)) :
    processRelation entities gid episodeUuid now freshUuid s relation = s := by
  unfold processRelation
  by_cases hc : relation.confidence.getD 1 < RELATION_CONFIDENCE_THRESHOLD
  · simp [hc]
  · simp only [hc, ite_false, hneg, ite_true]
    cases hsrc : entityMapGet entities relation.sourceName with
    | none => simp
    | some source =>
      cases htgt : entityMapGet entities relation.targetName with
      | none => simp
      | some target =>
        have hnone : findConflictEdge s source.uuid target.uuid relation.relationName gid
            = none := by
          unfold findConflictEdge
          split
          · exact List.find?_eq_none.mpr (fun e he => by
              simpa using habsent source target hsrc htgt e he)
          · rfl
        simp [resolveConflict, hnone]

/-- C2 (witness): a negated relation between resolved entities with no stored
edges at all is a no-op. -/
theorem c2_negated_without_counterpart_is_noop_witness :
    processRelation [entA, entB, entC] gidT epU 100 ([ 'x' ])
      { stateC1 with rels := [] } relNeg1 = { stateC1 with rels := [] } :=
  c2_negated_without_counterpart_is_noop _ _ _ _ _ _ relNeg1 (by decide)
    (fun _ _ _ _ e he => by simp at he)

/-- C3: for a non-negated relation with confidence ≥ 0.5 between resolved
entities: when no `RELATES_TO` edge with that relation name exists between
them, exactly one new edge is appended, with `validAt = now`,
`episodes = [episodeUuid]`, and `invalidAt = now` exactly when
`temporalValidity` is `historical` (a `current` relation yields
`invalidAt = null`); when such an edge exists and the relation is
`historical`, its `invalidAt` is set to `now` only if it was previously null
(otherwise the state is unchanged). -/
theorem c3_relation_upsert_temporal
    (s : GraphState) (entities : List EntityRec) (gid episodeUuid : Str) (now : Millis)
    (freshUuid : Str) (relation : ExtractedRelation) (source target : EntityRec)
    (hc : RELATION_CONFIDENCE_THRESHOLD ≤ relation.confidence.getD 1)
    (hneg : relation.isNegated.getD false = false)
    (hsrc : entityMapGet entities relation.sourceName = some source)
    (htgt : entityMapGet entities relation.targetName = some target)
    (hse : entityWithUuid s source.uuid = true)
    (hte : entityWithUuid s target.uuid = true) :
    ((findExistingRelation s source.uuid target.uuid relation.relationName = none) →
      (∀ r ∈ s.rels, r.uuid ≠ freshUuid) →
      processRelation entities gid episodeUuid now freshUuid s relation
        = { s with rels := s.rels ++
            [{ uuid := freshUuid, groupId := gid, source := source.uuid,
               target := target.uuid, name := relation.relationName, factIds := [],
               episodes := [episodeUuid], validAt := now,
               invalidAt :=
                 if relation.temporalValidity.getD .current = .historical
                 then some now else none,
               expiredAt := none, createdAt := now, disputedBy := [] }] }) ∧
    (∀ e, findExistingRelation s source.uuid target.uuid relation.relationName = some e →
      relation.temporalValidity.getD .current = .historical →
      ((e.invalidAt = none →
          processRelation entities gid episodeUuid now freshUuid s relation
            = { s with rels := s.rels.map (fun r =>
                if r.uuid = e.uuid ∧ r.source = e.source ∧ r.target = e.target
                then { e with invalidAt := some now, disputedBy := [] } else r) }) ∧
       (e.invalidAt ≠ none →
          processRelation entities gid episodeUuid now freshUuid s relation = s))) := by
  have hclt : ¬ relation.confidence.getD 1 < RELATION_CONFIDENCE_THRESHOLD :=
    not_lt.mpr hc
  constructor
  · intro hnone hfresh
    unfold processRelation
    simp only [hclt, ite_false, hneg, Bool.false_eq_true, hsrc, htgt, hnone]
    unfold saveRelEdge
    have hany : s.rels.any (fun r => decide (r.uuid = freshUuid ∧ r.source = source.uuid ∧
        r.target = target.uuid)) = false := by
      simp only [List.any_eq_false, decide_eq_true_eq]
      intro r hr hcontra
      exact hfresh r hr hcontra.1
    rw [if_pos (by rw [hse, hte]; rfl), if_neg (by rw [hany]; decide)]
  · intro e hfound htv
    constructor
    · intro hinv
      unfold processRelation
      simp only [hclt, ite_false, hneg, Bool.false_eq_true, hsrc, htgt, hfound, htv,
        ite_true, hinv]
      have hmem := List.mem_of_find?_eq_some hfound
      have hprop := List.find?_some hfound
      simp only [decide_eq_true_eq] at hprop
      unfold saveRelEdge
      have hse2 : entityWithUuid s e.source = true := by rw [hprop.1]; exact hse
      have hte2 : entityWithUuid s e.target = true := by rw [hprop.2.1]; exact hte
      have hany : s.rels.any (fun r => decide (r.uuid = e.uuid ∧ r.source = e.source ∧
          r.target = e.target)) = true := by
        simp only [List.any_eq_true, decide_eq_true_eq]
        exact ⟨e, hmem, rfl, rfl, rfl⟩
      rw [if_pos (by rw [hse2, hte2]; rfl), if_pos hany]
    · intro hinv
      unfold processRelation
      cases he : e.invalidAt with
      | none => exact absurd he hinv
      | some t =>
        simp [hclt, hneg, hsrc, htgt, hfound, htv, he]

/-- C3 (witness): creating a historical relation `(A)-[T]->(B)` in the fixture
graph appends exactly one edge with `validAt = now`, `episodes = [epU]` and
`invalidAt = now`. -/
theorem c3_relation_upsert_temporal_witness :
    processRelation [entA, entB, entC] gidT epU 100 ([ 'n' ]) { stateC1 with rels := [] }
      { sourceName := entA.name, targetName := entB.name, relationName := [ 'T' ],
        confidence := none, isNegated := none, temporalValidity := some .historical }
      = { stateC1 with rels :=
          [{ uuid := [ 'n' ], groupId := gidT, source := entA.uuid, target := entB.uuid,
             name := [ 'T' ], factIds := [], episodes := [epU], validAt := 100,
             invalidAt := some 100, expiredAt := none, createdAt := 100,
             disputedBy := [] }] } := by
  have h := (c3_relation_upsert_temporal { stateC1 with rels := [] } [entA, entB, entC]
    gidT epU 100 ([ 'n' ])
    { sourceName := entA.name, targetName := entB.name, relationName := [ 'T' ],
      confidence := none, isNegated := none, temporalValidity := some .historical }
    entA entB (by decide) (by decide) rfl rfl (by decide) (by decide)).1
    (by decide) (fun r hr => by simp at hr)
  simpa using h

/-- C4 (counterexample): an episode back-dated by exactly half a day
(43 200 000 ms).  The claim's formula `max(0, floor(Δ/86400 s))` gives 0, but
`addEpisode` uses `Math.round` and stores 1. -/
theorem c4_retroactive_days_counterexample :
    retroactiveDaysOf 43200000 0 = 1 ∧ specRetroactiveDays 43200000 0 = 0 := by
  constructor
  · show max 0 ⌊((43200000 - 0 : ℤ) : ℚ) / 86400000 + 1 / 2⌋ = 1
    norm_num
  · show max 0 ⌊((43200000 - 0 : ℤ) : ℚ) / 86400000⌋ = 0
    norm_num

/-- C4 (amended): every episode gets
`retroactive_days = max(0, round((created_at − valid_at)/86400 s))`, where
`round` is JS `Math.round` (floor of the value plus one half).  In particular
the value is 0 whenever `valid_at ≥ created_at` (including the default
`valid_at = created_at`), and an episode back-dated by a whole number of days
gets exactly that number; a fractional back-date of at least half a day rounds
up rather than down. -/
theorem c4_retroactive_days_amended (c v : Millis) :
    retroactiveDaysOf c v = max 0 ⌊((c - v : ℤ) : ℚ) / 86400000 + 1 / 2⌋ ∧
    (c ≤ v → retroactiveDaysOf c v = 0) ∧
    (∀ d : ℕ, c - v = (d : ℤ) * 86400000 → retroactiveDaysOf c v = d) := by
  refine ⟨rfl, ?_, ?_⟩
  · intro hle
    have hq : ((c - v : ℤ) : ℚ) / 86400000 + 1 / 2 < 1 := by
      have h1 : ((c - v : ℤ) : ℚ) ≤ 0 := by
        have h0 : (c - v : ℤ) ≤ 0 := sub_nonpos.mpr hle
        exact_mod_cast h0
      have h2 : ((c - v : ℤ) : ℚ) / 86400000 ≤ 0 := by
        apply div_nonpos_of_nonpos_of_nonneg h1
        norm_num
      linarith
    have hfl : ⌊((c - v : ℤ) : ℚ) / 86400000 + 1 / 2⌋ ≤ 0 := by
      have hlt : ⌊((c - v : ℤ) : ℚ) / 86400000 + 1 / 2⌋ < 1 := by
        apply Int.floor_lt.mpr
        push_cast at hq ⊢
        linarith
      omega
    show max 0 (jsRound _) = 0
    unfold jsRound
    omega
  · intro d hd
    show max 0 (jsRound _) = d
    unfold jsRound
    rw [hd]
    have : ((((d : ℤ) * 86400000 : ℤ) : ℚ)) / 86400000 = (d : ℚ) := by
      push_cast
      field_simp
    rw [this]
    have hfl : ⌊(d : ℚ) + 1 / 2⌋ = (d : ℤ) := by
      apply Int.floor_eq_iff.mpr
      constructor
      · push_cast; linarith
      · push_cast; linarith
    rw [hfl]
    omega

/-- C4 (witness for the amended theorem): instantiated at a default episode
(`valid_at = created_at`) and at a two-day back-date. -/
theorem c4_retroactive_days_amended_witness :
    retroactiveDaysOf 500 500 = 0 ∧ retroactiveDaysOf 172800000 0 = 2 :=
  ⟨(c4_retroactive_days_amended 500 500).2.1 le_rfl,
   (c4_retroactive_days_amended 172800000 0).2.2 2 (by norm_num)⟩

/-! ## Association-list model of a JS `Map` (insertion-ordered) -/

/-- Lookup in a JS `Map`. -/
def alGet {α : Type} : List (Str × α) → Str → Option α
  | [], _ => none
  | p :: rest, k => if p.1 = k then some p.2 else alGet rest k

/-- JS `Map.set`: update the existing key in place, else append. -/
def alSet {α : Type} : List (Str × α) → Str → α → List (Str × α)
  | [], k, v => [(k, v)]
  | p :: rest, k, v => if p.1 = k then (k, v) :: rest else p :: alSet rest k v

theorem alGet_alSet_self {α : Type} (m : List (Str × α)) (k : Str) (v : α) :
    alGet (alSet m k v) k = some v := by
  induction m with
  | nil => simp [alSet, alGet]
  | cons p rest ih =>
    by_cases h : p.1 = k
    · simp [alSet, alGet, h]
    · simp [alSet, alGet, h, ih]

theorem alGet_alSet_other {α : Type} (m : List (Str × α)) (k k' : Str) (v : α)
    (h : k' ≠ k) : alGet (alSet m k v) k' = alGet m k' := by
  induction m with
  | nil => simp [alSet, alGet, Ne.symm h]
  | cons p rest ih =>
    by_cases hp : p.1 = k
    · subst hp
      simp [alSet, alGet, Ne.symm h]
    · simp [alSet, alGet, hp, ih]

/-! ## Louvain community detection (community-builder.ts `runLouvain`) -/

/-- The `EntityRecord` rows the community builder passes to Louvain. -/
structure LouvainEntity where
  uuid : Str
  name : Str
  entityType : Str
  summary : Str
deriving DecidableEq

/-- An entity-entity `RELATES_TO` row (`EdgeRecord`). -/
structure LouvainEdge where
  source : Str
  target : Str
deriving DecidableEq

/-- Edges that contribute weight: both endpoints must be entity uuids (the
`adj.has` guards) and self-loops are skipped. -/
def louvainKeptEdges (entities : List LouvainEntity) (edges : List LouvainEdge) :
    List LouvainEdge :=
  edges.filter (fun e =>
    (entities.any (fun x => decide (x.uuid = e.source))) &&
    (entities.any (fun x => decide (x.uuid = e.target))) &&
    !(decide (e.source = e.target)))

/-- Weighted degree of a node after the edge pass (uniform weight 1 per kept
incidence). -/
def louvainDegree (kept : List LouvainEdge) (u : Str) : ℚ :=
  kept.foldl (fun acc e =>
    acc + (if e.source = u then 1 else 0) + (if e.target = u then 1 else 0)) 0

/-- The adjacency row `adj.get(u)`: neighbour → accumulated weight. -/
def louvainAdj (kept : List LouvainEdge) (u : Str) : List (Str × ℚ) :=
  kept.foldl (fun m e =>
    if e.source = u then alSet m e.target ((alGet m e.target).getD 0 + 1)
    else if e.target = u then alSet m e.source ((alGet m e.source).getD 0 + 1)
    else m) []

/-- Set up: every entity is its own community (label = its uuid). -/
def initAssignments (entities : List LouvainEntity) : List (Str × Str) :=
  entities.foldl (fun m e => alSet m e.uuid e.uuid) []

/-- Set up `Σ_tot` per community: the node's own degree. -/
def initCommDeg (kept : List LouvainEdge) (entities : List LouvainEntity) :
    List (Str × ℚ) :=
  entities.foldl (fun m e => alSet m e.uuid (louvainDegree kept e.uuid)) []

/-- Mutable state of the local-optimisation loop. -/
structure LouvainLoopState where
  assignments : List (Str × Str)
  commDeg : List (Str × ℚ)

/-- One greedy visit of a node: compute `k_old`, the candidate neighbour
communities with their `k_new`, pick the largest positive `ΔQ`, and move. -/
def louvainVisitNode (kept : List LouvainEdge) (m : ℚ) (st : LouvainLoopState)
    (nodeId : Str) : LouvainLoopState × Bool :=
  let ki := louvainDegree kept nodeId
  if ki = 0 then (st, false)
  else
    let currentComm := (alGet st.assignments nodeId).getD nodeId
    let neighbors := louvainAdj kept nodeId
    let kOld := neighbors.foldl (fun acc p =>
      if alGet st.assignments p.1 = some currentComm then acc + p.2 else acc) 0
    let sigmaTotOld := (alGet st.commDeg currentComm).getD 0
    let neighborComms := neighbors.foldl (fun acc p =>
      match alGet st.assignments p.1 with
      | some nc => if nc ≠ currentComm then alSet acc nc ((alGet acc nc).getD 0 + p.2) else acc
      | none => acc) ([] : List (Str × ℚ))
    let best := neighborComms.foldl (fun (b : ℚ × Str) p =>
      let sigmaTotNew := (alGet st.commDeg p.1).getD 0
      let delta := (p.2 - kOld) / m - (ki * (sigmaTotNew - sigmaTotOld + ki)) / (2 * m * m)
      if delta > b.1 then (delta, p.1) else b) ((0 : ℚ), currentComm)
    if best.2 ≠ currentComm then
      let cd1 := alSet st.commDeg currentComm ((alGet st.commDeg currentComm).getD 0 - ki)
      let cd2 := alSet cd1 best.2 ((alGet cd1 best.2).getD 0 + ki)
      ({ assignments := alSet st.assignments nodeId best.2, commDeg := cd2 }, true)
    else (st, false)

/-- One full pass over all entities; the Bool records whether any node moved. -/
def louvainPass (kept : List LouvainEdge) (m : ℚ) (entities : List LouvainEntity)
    (st : LouvainLoopState) : LouvainLoopState × Bool :=
  entities.foldl (fun acc e =>
    let r := louvainVisitNode kept m acc.1 e.uuid
    (r.1, acc.2 || r.2)) (st, false)

/-- The `while (improved)` loop.  The source iterates until a pass makes no
move; every earlier pass strictly increases modularity, which ranges over a
finite set, so the loop terminates and a sufficiently large iteration bound is
semantically identical.  The bound is irrelevant to every checked property
(they all concern the `m = 0` early return). -/
def louvainLoop (kept : List LouvainEdge) (m : ℚ) (entities : List LouvainEntity) :
    Nat → LouvainLoopState → LouvainLoopState
  | 0, st => st
  | fuel + 1, st =>
    let r := louvainPass kept m entities st
    if r.2 then louvainLoop kept m entities fuel r.1 else r.1

/-- `runLouvain` (community-builder.ts 53–137). -/
def runLouvain (entities : List LouvainEntity) (edges : List LouvainEdge) :
    List (Str × Str) :=
  let kept := louvainKeptEdges entities edges
  let m : ℚ := kept.length
  let st0 : LouvainLoopState :=
    { assignments := initAssignments entities, commDeg := initCommDeg kept entities }
  if m = 0 then st0.assignments
  else (louvainLoop kept m entities (2 ^ (entities.length + kept.length)) st0).assignments

/-- Helper: after folding `alSet m e.uuid e.uuid` over a list, every uuid of
the list (and every key already mapped to itself) looks itself up. -/
theorem alGet_selfFold (l : List LouvainEntity) (m : List (Str × Str)) (u : Str)
    (h : u ∈ l.map (fun e => e.uuid) ∨ alGet m u = some u) :
    alGet (l.foldl (fun m e => alSet m e.uuid e.uuid) m) u = some u := by
  induction l generalizing m with
  | nil =>
    rcases h with h | h
    · simp at h
    · simpa using h
  | cons e rest ih =>
    by_cases he : u = e.uuid
    · subst he
      exact ih (alSet m e.uuid e.uuid) (Or.inr (alGet_alSet_self m e.uuid e.uuid))
    · rcases h with h | h
      · rcases List.mem_map.mp h with ⟨x, hx, hxu⟩
        rcases List.mem_cons.mp hx with hx1 | hx2
        · exact absurd (hx1 ▸ hxu).symm he
        · exact ih (alSet m e.uuid e.uuid) (Or.inl (List.mem_map.mpr ⟨x, hx2, hxu⟩))
      · exact ih (alSet m e.uuid e.uuid)
          (Or.inr ((alGet_alSet_other m e.uuid u e.uuid he).trans h))

/-- C9: on an entity set whose induced graph has no usable edges (every
`RELATES_TO` row is a self-loop or has an endpoint outside the entity set, so
the total weight `m` is 0), `runLouvain` returns the initial assignment and
every entity is its own singleton community labelled by its own uuid. -/
theorem c9_louvain_edgeless_singletons (entities : List LouvainEntity)
    (edges : List LouvainEdge)
    (h : ∀ e ∈ edges, e.source = e.target ∨
      e.source ∉ entities.map (fun x => x.uuid) ∨
      e.target ∉ entities.map (fun x => x.uuid)) :
    runLouvain entities edges = initAssignments entities ∧
    ∀ ent ∈ entities, alGet (runLouvain entities edges) ent.uuid = some ent.uuid := by
  have hkept : louvainKeptEdges entities edges = [] := by
    unfold louvainKeptEdges
    rw [List.filter_eq_nil_iff]
    intro e he
    rcases h e he with hself | hsrc | htgt
    · simp [hself]
    · have : entities.any (fun x => decide (x.uuid = e.source)) = false := by
        simp only [List.any_eq_false, decide_eq_true_eq]
        intro x hx hxe
        exact hsrc (List.mem_map.mpr ⟨x, hx, hxe⟩)
      simp [this]
    · have : entities.any (fun x => decide (x.uuid = e.target)) = false := by
        simp only [List.any_eq_false, decide_eq_true_eq]
        intro x hx hxe
        exact htgt (List.mem_map.mpr ⟨x, hx, hxe⟩)
      simp [this]
  have hrun : runLouvain entities edges = initAssignments entities := by
    unfold runLouvain
    rw [hkept]
    simp
  refine ⟨hrun, fun ent hent => ?_⟩
  rw [hrun]
  exact alGet_selfFold entities [] ent.uuid
    (Or.inl (List.mem_map.mpr ⟨ent, hent, rfl⟩))

/-- Louvain entity fixtures. -/
def louvEntU : LouvainEntity := { uuid := [ 'u' ], name := [ 'U' ], entityType := [], summary := [] }

/-- Second Louvain entity fixture. -/
def louvEntV : LouvainEntity := { uuid := [ 'v' ], name := [ 'V' ], entityType := [], summary := [] }

/-- Self-loop edge fixture. -/
def louvEdgeSelf : LouvainEdge := { source := [ 'u' ], target := [ 'u' ] }

/-- Dangling edge fixture (source outside the entity set). -/
def louvEdgeDangling : LouvainEdge := { source := [ 'w' ], target := [ 'v' ] }

/-- C9 (witness): two entities with only a self-loop and a dangling edge stay
singletons. -/
theorem c9_louvain_edgeless_singletons_witness :
    alGet (runLouvain [louvEntU, louvEntV] [louvEdgeSelf, louvEdgeDangling])
      louvEntV.uuid = some louvEntV.uuid :=
  (c9_louvain_edgeless_singletons [louvEntU, louvEntV] [louvEdgeSelf, louvEdgeDangling]
    (by decide)).2 louvEntV (by decide)

/-! ## Search result nodes and temporal re-ranking (graphzep.ts 604–734)

Similarity scores and the exponential decay factors are real numbers here, so
the definitions in this part are noncomputable; the classical instances below
only serve the `if`/sort branches on reals. -/

open scoped Classical

/-- In-memory `EpisodicNodeImpl` (core/nodes.ts 169–186).  The constructor
assigns only the listed fields; in particular it never assigns
`retroactiveDays` (the optional interface field), so the field is `none` on
every materialised instance. -/
structure EpisodicImpl where
  uuid : Str
  name : Str
  groupId : Str
  episodeType : Str
  content : Str
  embedding : Option (List ℝ)
  validAt : Millis
  invalidAt : Option Millis
  referenceId : Option Str
  createdAt : Millis
  retroactiveDays : Option ℚ

/-- Materialisation `new EpisodicNodeImpl({ ...nodeData, labels })` from a
stored property map (graphzep.ts 645–646): the constructor drops
`retroactiveDays` even when the data carries it. -/
def materializeEpisodic (props : EpisodeRec) : EpisodicImpl :=
  { uuid := props.uuid, name := props.name, groupId := props.groupId,
    episodeType := props.episodeType, content := props.content,
    embedding := props.embedding, validAt := props.validAt,
    invalidAt := props.invalidAt, referenceId := props.referenceId,
    createdAt := props.createdAt, retroactiveDays := none }

/-- A node of a `search` result: Entity, Episodic or Community instance. -/
inductive SearchNode where
  | entity (e : EntityRec)
  | episodic (e : EpisodicImpl)
  | community (c : CommunityRec)

/-- Uuid of a search result node. -/
def nodeUuid : SearchNode → Str
  | .entity e => e.uuid
  | .episodic e => e.uuid
  | .community c => c.uuid

/-- Scoring step of `_applyTemporalWeighting` (graphzep.ts 715–730):
`adjusted = base * (1 + alpha * proximity * contemporaneity)` for Episodic
nodes, `base` otherwise, with `base = scoreMap.get(uuid) ?? 0`,
`proximity = exp(-(|validAt - queryTime| in days) / halfLifeDays)` and
`contemporaneity = exp(-(retroactiveDays ?? 0) / 30)`.  This is the same
formula the spec sentence states. -/
noncomputable def adjustedScore (scoreMap : List (Str × ℝ)) (queryTime : Millis)
    (alpha halfLifeDays : ℝ) (node : SearchNode) : ℝ :=
  let baseScore := (alGet scoreMap (nodeUuid node)).getD 0
  match node with
  | .episodic ep =>
    let daysDelta := |(ep.validAt : ℝ) - (queryTime : ℝ)| / 86400000
    let proximityScore := Real.exp (-(daysDelta / halfLifeDays))
    let contemporaneity := Real.exp (-(((ep.retroactiveDays.getD 0 : ℚ) : ℝ) / 30))
    baseScore * (1 + alpha * proximityScore * contemporaneity)
  | _ => baseScore

/-- `_applyTemporalWeighting` (graphzep.ts 708–734): attach scores, sort by
score descending (`(a, b) => b.score - a.score`), return the nodes. -/
noncomputable def applyTemporalWeighting (nodes : List SearchNode)
    (scoreMap : List (Str × ℝ)) (queryTime : Millis) (alpha halfLifeDays : ℝ) :
    List SearchNode :=
  let scored := nodes.map (fun n => (n, adjustedScore scoreMap queryTime alpha halfLifeDays n))
  let sorted := scored.mergeSort (fun a b => decide (b.2 ≤ a.2))
  sorted.map (fun p => p.1)

/-- The `if (params.queryTime)` re-ranking step of `search`
(graphzep.ts 676–690), with the defaults `temporalAlpha ?? 0.3` and
`halfLifeDays ?? 30`. -/
noncomputable def searchTemporalStage (queryTime : Option Millis)
    (temporalAlpha halfLifeDays : Option ℝ) (nodes : List SearchNode)
    (scoreMap : List (Str × ℝ)) : List SearchNode :=
  match queryTime with
  | some qt =>
    applyTemporalWeighting nodes scoreMap qt (temporalAlpha.getD 0.3) (halfLifeDays.getD 30)
  | none => nodes

/-- C5: when `query_time` is provided, the search result is a permutation of
the incoming nodes sorted descending by the adjusted score, where the
adjusted score of an Episodic node is
`base * (1 + (temporal_alpha ?? 0.3) * exp(-|validAt - queryTime|days / (half_life_days ?? 30)) * exp(-(retroactiveDays ?? 0)/30))`
and every non-Episodic node keeps its base similarity score. -/
theorem c5_temporal_reranking (queryTime : Option Millis) (qt : Millis)
    (temporalAlpha halfLifeDays : Option ℝ) (nodes : List SearchNode)
    (scoreMap : List (Str × ℝ)) (hqt : queryTime = some qt) :
    (searchTemporalStage queryTime temporalAlpha halfLifeDays nodes scoreMap).Perm nodes ∧
    (searchTemporalStage queryTime temporalAlpha halfLifeDays nodes scoreMap).Pairwise
      (fun a b =>
        adjustedScore scoreMap qt (temporalAlpha.getD 0.3) (halfLifeDays.getD 30) b ≤
        adjustedScore scoreMap qt (temporalAlpha.getD 0.3) (halfLifeDays.getD 30) a) ∧
    (∀ e : EntityRec,
        adjustedScore scoreMap qt (temporalAlpha.getD 0.3) (halfLifeDays.getD 30)
          (SearchNode.entity e) = (alGet scoreMap e.uuid).getD 0) ∧
    (∀ c : CommunityRec,
        adjustedScore scoreMap qt (temporalAlpha.getD 0.3) (halfLifeDays.getD 30)
          (SearchNode.community c) = (alGet scoreMap c.uuid).getD 0) ∧
    (∀ ep : EpisodicImpl,
        adjustedScore scoreMap qt (temporalAlpha.getD 0.3) (halfLifeDays.getD 30)
          (SearchNode.episodic ep)
          = ((alGet scoreMap ep.uuid).getD 0) *
            (1 + (temporalAlpha.getD 0.3) *
              Real.exp (-(|(ep.validAt : ℝ) - (qt : ℝ)| / 86400000 / (halfLifeDays.getD 30))) *
              Real.exp (-(((ep.retroactiveDays.getD 0 : ℚ) : ℝ) / 30)))) := by
  subst hqt
  set a := temporalAlpha.getD 0.3 with ha
  set hl := halfLifeDays.getD 30 with hhl
  have hmap : (nodes.map (fun n => (n, adjustedScore scoreMap qt a hl n))).map
      (fun p => p.1) = nodes := by
    induction nodes with
    | nil => rfl
    | cons x xs ih => simpa using ih
  have hperm : (searchTemporalStage (some qt) temporalAlpha halfLifeDays nodes scoreMap).Perm
      nodes := by
    unfold searchTemporalStage applyTemporalWeighting
    refine ((List.mergeSort_perm _ _).map _).trans ?_
    rw [hmap]
  refine ⟨hperm, ?_, fun _ => rfl, fun _ => rfl, fun _ => rfl⟩
  unfold searchTemporalStage applyTemporalWeighting
  have hsorted : ((nodes.map (fun n => (n, adjustedScore scoreMap qt a hl n))).mergeSort
      (fun p q => decide (q.2 ≤ p.2))).Pairwise (fun p q => decide (q.2 ≤ p.2) = true) := by
    apply List.sorted_mergeSort
    · intro x y z hxy hyz
      simp only [decide_eq_true_eq] at hxy hyz ⊢
      exact le_trans hyz hxy
    · intro x y
      rcases le_total x.2 y.2 with h | h <;> simp [h]
  have hshape : ∀ p ∈ (nodes.map (fun n => (n, adjustedScore scoreMap qt a hl n))).mergeSort
      (fun p q => decide (q.2 ≤ p.2)), p.2 = adjustedScore scoreMap qt a hl p.1 := by
    intro p hp
    have hmem := (List.mergeSort_perm _ _).mem_iff.mp hp
    rcases List.mem_map.mp hmem with ⟨n, _, rfl⟩
    rfl
  rw [List.pairwise_map]
  refine hsorted.imp_of_mem ?_
  intro p q hp hq h
  simp only [decide_eq_true_eq] at h
  rw [hshape p hp, hshape q hq] at h
  exact h

/-- `EpisodicNodeImpl.save` (core/nodes.ts 188–217):
`MERGE (n:Episodic {uuid}) SET n.name, n.episodeType, n.content, n.groupId,
 n.createdAt, n.validAt, n.invalidAt, n.referenceId` plus `n.embedding` when
the instance has one — and no other property. -/
def saveEpisodicNode (s : GraphState) (n : EpisodicImpl) : GraphState :=
  if s.episodes.any (fun e => decide (e.uuid = n.uuid)) then
    { s with episodes := s.episodes.map (fun ep =>
        if ep.uuid = n.uuid then
          { ep with
            name := n.name
            episodeType := n.episodeType
            content := n.content
            groupId := n.groupId
            createdAt := n.createdAt
            validAt := n.validAt
            invalidAt := n.invalidAt
            referenceId := n.referenceId
            embedding := if n.embedding.isSome then n.embedding else ep.embedding }
        else ep) }
  else
    { s with episodes := s.episodes ++
        [{ uuid := n.uuid
           name := n.name
           groupId := n.groupId
           episodeType := n.episodeType
           content := n.content
           embedding := if n.embedding.isSome then n.embedding else none
           validAt := n.validAt
           invalidAt := n.invalidAt
           referenceId := n.referenceId
           createdAt := n.createdAt
           consolidatedAt := none
           disputedBy := none
           retroactiveDays := none }] }

/-- C10: `EpisodicNodeImpl.save` never writes `retroactiveDays` or
`disputedBy` (the updated record keeps the stored values, a created record has
neither), the constructor drops `retroactiveDays` when re-materialising a
stored Episodic node, and consequently the contemporaneity factor of the
temporal re-ranking is `exp(0) = 1` for every re-materialised episode, however
far back-dated it was at ingestion. -/
theorem c10_save_never_persists_retroactive_days
    (s : GraphState) (n : EpisodicImpl) (props : EpisodeRec)
    (hinv : ∀ ep ∈ s.episodes, ep.retroactiveDays = none) :
    (∀ ep ∈ (saveEpisodicNode s n).episodes, ep.retroactiveDays = none) ∧
    (∀ ep ∈ s.episodes, ∃ ep' ∈ (saveEpisodicNode s n).episodes,
        ep'.uuid = ep.uuid ∧ ep'.disputedBy = ep.disputedBy ∧
        ep'.retroactiveDays = ep.retroactiveDays) ∧
    (materializeEpisodic props).retroactiveDays = none ∧
    (∀ scoreMap qt alpha halfLifeDays,
        adjustedScore scoreMap qt alpha halfLifeDays
            (SearchNode.episodic (materializeEpisodic props))
          = ((alGet scoreMap props.uuid).getD 0) *
            (1 + alpha *
              Real.exp (-(|(props.validAt : ℝ) - (qt : ℝ)| / 86400000 / halfLifeDays)))) := by
  refine ⟨?_, ?_, rfl, ?_⟩
  · intro ep hep
    unfold saveEpisodicNode at hep
    by_cases hex : s.episodes.any (fun e => decide (e.uuid = n.uuid))
    · simp only [hex, ite_true] at hep
      rcases List.mem_map.mp hep with ⟨e0, he0, rfl⟩
      by_cases h0 : e0.uuid = n.uuid
      · simp [h0, hinv e0 he0]
      · simp [h0, hinv e0 he0]
    · simp only [hex, Bool.false_eq_true, ite_false, List.mem_append] at hep
      rcases hep with hep | hep
      · exact hinv ep hep
      · simp only [List.mem_singleton] at hep
        subst hep
        rfl
  · intro ep hep
    unfold saveEpisodicNode
    by_cases hex : s.episodes.any (fun e => decide (e.uuid = n.uuid))
    · simp only [hex, ite_true]
      by_cases h0 : ep.uuid = n.uuid
      · exact ⟨_, List.mem_map.mpr ⟨ep, hep, rfl⟩, by simp [h0]⟩
      · exact ⟨_, List.mem_map.mpr ⟨ep, hep, rfl⟩, by simp [h0]⟩
    · exact ⟨ep, by simp [hex, List.mem_append, hep], rfl, rfl, rfl⟩
  · intro scoreMap qt alpha halfLifeDays
    show ((alGet scoreMap props.uuid).getD 0) *
        (1 + alpha * Real.exp (-(|(props.validAt : ℝ) - (qt : ℝ)| / 86400000 / halfLifeDays)) *
          Real.exp (-(((0 : ℚ) : ℝ) / 30)))
      = _
    rw [show (-(((0 : ℚ) : ℝ) / 30)) = 0 by norm_num, Real.exp_zero, mul_one]

/-- C5 (witness): the re-ranking theorem instantiated at `query_time = 0` on an
empty result list, plus the non-Episodic passthrough at a concrete entity. -/
theorem c5_temporal_reranking_witness :
    (searchTemporalStage (some 0) none none [] []).Perm [] ∧
    adjustedScore [] 0 ((none : Option ℝ).getD 0.3) ((none : Option ℝ).getD 30)
      (SearchNode.entity entA) = (alGet [] entA.uuid).getD 0 := by
  have h := c5_temporal_reranking (some 0) 0 none none [] [] rfl
  exact ⟨h.1, h.2.2.1 entA⟩

/-- C10 (witness): the fixture episode re-materialised from the store has no
`retroactiveDays`, and its adjusted score carries contemporaneity factor 1. -/
theorem c10_save_never_persists_retroactive_days_witness :
    (materializeEpisodic epRec).retroactiveDays = none ∧
    adjustedScore [] 0 1 30 (SearchNode.episodic (materializeEpisodic epRec))
      = ((alGet [] epRec.uuid).getD 0) *
        (1 + 1 * Real.exp (-(|((epRec.validAt : Millis) : ℝ) - ((0 : Millis) : ℝ)|
            / 86400000 / 30))) := by
  have h := c10_save_never_persists_retroactive_days stateC1 (materializeEpisodic epRec) epRec
    (by
      intro ep hep
      have : ep = epRec := by simpa [stateC1] using hep
      subst this
      rfl)
  exact ⟨h.2.2.1, h.2.2.2 [] 0 1 30⟩

/-! ## Entity-candidate fetching for ingestion (graphzep.ts 206–257) and the
Neo4j driver's numeric parameter marshalling (neo4j.ts 22–38) -/

/-- Dot product, the `reduce(sim = 0.0, …)` fragment of the candidate query
(both vectors are assumed to share the embedder's fixed dimension). -/
noncomputable def dotProduct (a b : List ℝ) : ℝ :=
  (List.zipWith (fun x y => x * y) a b).sum

/-- The `cosineSimilarity` utility (pruner, consolidator.ts 505–517); also the
notion of cosine similarity the spec's candidate-fetch sentence uses. -/
noncomputable def cosineSimilarity (a b : List ℝ) : ℝ :=
  if a.length ≠ b.length ∨ a.length = 0 then 0
  else
    let dot := (List.zipWith (fun x y => x * y) a b).sum
    let magA := (a.map (fun x => x * x)).sum
    let magB := (b.map (fun x => x * x)).sum
    let mag := Real.sqrt magA * Real.sqrt magB
    if mag = 0 then 0 else dot / mag

/-- `Neo4jDriver.executeQuery` parameter processing (neo4j.ts 22–36): every
finite JS number parameter `v` is sent as `neo4j.int(Math.floor(v))` — also
non-whole numbers, although the adjacent comment announces the conversion for
whole-number parameters only. -/
noncomputable def neo4jMarshalNumber (v : ℝ) : ℝ := ((⌊v⌋ : ℤ) : ℝ)

/-- One row of the semantic candidate query. -/
structure CandidateRow where
  uuid : Str
  name : Str
  entityType : Str
  semanticScore : ℝ
  createdAt : Millis

/-- The semantic candidate Cypher query of `fetchExistingEntities`
(graphzep.ts 224–237): entities of the group with a `summaryEmbedding`,
`WHERE semanticScore > $threshold`, `ORDER BY semanticScore DESC`,
`LIMIT $pool`. -/
noncomputable def entityCandidateQuery (s : GraphState) (gid : Str)
    (embedding : List ℝ) (threshold : ℝ) (pool : Nat) : List CandidateRow :=
  let rows := (s.entities.filter (fun e =>
      decide (e.groupId = gid) && e.summaryEmbedding.isSome)).map
    (fun e =>
      { uuid := e.uuid
        name := e.name
        entityType := e.entityType
        semanticScore := dotProduct (e.summaryEmbedding.getD []) embedding
        createdAt := e.createdAt })
  let kept := rows.filter (fun r => decide (r.semanticScore > threshold))
  (kept.mergeSort (fun a b => decide (b.semanticScore ≤ a.semanticScore))).take pool

/-- `fetchExistingEntities` with an episode embedding (graphzep.ts 206–257):
the candidate query runs through the Neo4j driver, so its `threshold: 0.65`
parameter arrives marshalled; the candidates are re-ranked by
`0.7 * semantic + 0.3 * exp(-0.1 * ageDays)`, filtered to non-empty names,
sorted descending and cut to the top 20. -/
noncomputable def fetchExistingEntities (s : GraphState) (gid : Str)
    (episodeEmbedding : List ℝ) (now : Millis) : List (Str × Str × Str) :=
  let candidates := entityCandidateQuery s gid episodeEmbedding (neo4jMarshalNumber 0.65) 50
  if candidates.length = 0 then []
  else
    let scored := candidates.map (fun r =>
      let ageDays := ((now : ℝ) - (r.createdAt : ℝ)) / 86400000
      let recencyScore := Real.exp (-(0.1 * ageDays))
      (r, 0.7 * r.semanticScore + (1 - 0.7) * recencyScore))
    let named := scored.filter (fun p => !p.1.name.isEmpty)
    let sorted := named.mergeSort (fun a b => decide (b.2 ≤ a.2))
    (sorted.take 20).map (fun p => (p.1.uuid, p.1.name, p.1.entityType))

/-- Entity fixture whose summary embedding has dot product 1/2 with the
episode embedding `[1/2, 10]` but cosine similarity 1/√401 ≈ 0.05. -/
def entC8 : EntityRec :=
  { uuid := [ 'q' ], name := [ 'Q' ], groupId := gidT, entityType := [ 'P' ],
    summary := [], summaryEmbedding := some [1, 0], embedding := some [1, 0],
    factIds := [], createdAt := 0, consolidatedAt := none }

/-- Store fixture for the candidate-fetch evaluation. -/
def stateC8 : GraphState :=
  { entities := [entC8], episodes := [], rels := [], mentions := [],
    communities := [], hasMember := [] }

/-- Episode embedding fixture. -/
noncomputable def embC8 : List ℝ := [1 / 2, 10]

/-- C8: evaluation of the code at the failing input.  The driver marshals the
`0.65` similarity threshold to `0` (flooring every numeric parameter), so an
entity whose similarity is far below 0.65 — dot product 1/2, cosine 1/√401 —
is fetched as a candidate, contradicting the claimed `> 0.65` filter. -/
theorem c8_threshold_marshalling_bug :
    neo4jMarshalNumber 0.65 = 0 ∧
    (fetchExistingEntities stateC8 gidT embC8 0).map (fun t => t.1) = [entC8.uuid] ∧
    ¬ dotProduct [1, 0] embC8 > 0.65 ∧
    cosineSimilarity [1, 0] embC8 < 0.65 := by
  have hdot : dotProduct [1, 0] embC8 = 1 / 2 := by
    unfold dotProduct embC8
    norm_num
  have hthr : neo4jMarshalNumber 0.65 = 0 := by
    unfold neo4jMarshalNumber
    norm_num
  refine ⟨hthr, ?_, ?_, ?_⟩
  · have hrow : entityCandidateQuery stateC8 gidT embC8 (neo4jMarshalNumber 0.65) 50
        = [{ uuid := entC8.uuid, name := entC8.name, entityType := entC8.entityType,
             semanticScore := dotProduct [1, 0] embC8, createdAt := entC8.createdAt }] := by
      unfold entityCandidateQuery
      rw [hthr]
      have h1 : (stateC8.entities.filter (fun e =>
          decide (e.groupId = gidT) && e.summaryEmbedding.isSome)) = [entC8] := by
        simp [stateC8, entC8]
      rw [h1]
      have h2 : dotProduct ((entC8.summaryEmbedding).getD []) embC8 > 0 := by
        show dotProduct [1, 0] embC8 > 0
        rw [hdot]; norm_num
      simp only [List.map_cons, List.map_nil, List.filter_cons, List.filter_nil,
        decide_eq_true_eq]
      rw [if_pos h2]
      rw [List.mergeSort_singleton]
      simp [entC8]
    unfold fetchExistingEntities
    rw [hrow]
    simp only [List.length_cons, List.length_nil]
    rw [if_neg (by norm_num)]
    have hname : (!(entC8.name.isEmpty)) = true := by simp [entC8]
    simp only [List.map_cons, List.map_nil, List.filter_cons, hname, ite_true,
      List.filter_nil, List.mergeSort_singleton, List.take_cons, List.take_nil]
    rfl
  · rw [hdot]; norm_num
  · unfold cosineSimilarity embC8
    rw [if_neg (by norm_num)]
    simp only []
    have hmagB : ((([(1 : ℝ) / 2, 10].map (fun x => x * x)).sum)) = 401 / 4 := by
      norm_num
    have hmagA : ((([(1 : ℝ), 0].map (fun x => x * x)).sum)) = 1 := by
      norm_num
    have hdot2 : ((List.zipWith (fun x y => x * y) [(1 : ℝ), 0] [1 / 2, 10]).sum) = 1 / 2 := by
      norm_num
    rw [hmagA, hmagB, hdot2, Real.sqrt_one, one_mul]
    have hpos : (0 : ℝ) < Real.sqrt (401 / 4) := Real.sqrt_pos.mpr (by norm_num)
    rw [if_neg (by positivity)]
    rw [div_lt_iff₀ hpos]
    have hgt : (10 : ℝ) / 13 < Real.sqrt (401 / 4) := by
      rw [Real.lt_sqrt (by norm_num)]
      norm_num
    nlinarith [hgt, hpos]

/-! ## Sleep options and reports (sleep/types.ts), flattened -/

/-- `SleepOptions` with the nested per-phase groups flattened; `Option` fields
carry the defaults applied at the use sites via `??`. -/
structure SleepOptions where
  dryRun : Option Bool
  cooldownMinutes : Option Int
  consolidationEnabled : Option Bool
  minEpisodes : Option Nat
  maxEntities : Option Nat
  pruningEnabled : Option Bool
  similarityThreshold : Option ℝ
  communitiesEnabled : Option Bool
  minGraphSize : Option Nat
  minCommunitySize : Option Nat
  rebuildThreshold : Option Int

/-! ## Sleep Phase 2: Pruner (consolidator.ts 272–517) -/

/-- `EntityCandidate` row of `fetchCandidatePairs`. -/
structure EntityCandidate where
  uuidA : Str
  nameA : Str
  embA : Option (List ℝ)
  degreeA : Nat
  uuidB : Str
  nameB : Str
  embB : Option (List ℝ)
  degreeB : Nat

/-- `ScoredPair` (consolidator.ts 262–268). -/
structure ScoredPair extends EntityCandidate where
  similarity : ℝ
  canonicalUuid : Str
  canonicalName : Str
  duplicateUuid : Str
  duplicateName : Str

/-- `MergedPair` (sleep/types.ts): canonical and duplicate entity names plus
the similarity that triggered the merge. -/
structure MergedPair where
  canonical : Str
  duplicate : Str
  similarity : ℝ

/-- `PruningReport`. -/
structure PruningReport where
  entitiesMerged : Nat
  mergedPairs : List MergedPair
  edgesPruned : Nat

/-- Degree used by `fetchCandidatePairs`:
`size([(a)-[:RELATES_TO|MENTIONS]-() | 1])`, the number of incident
`RELATES_TO` or `MENTIONS` edges in either direction. -/
def entityDegree (s : GraphState) (u : Str) : Nat :=
  (s.rels.filter (fun r => decide (r.source = u) || decide (r.target = u))).length +
  (s.mentions.filter (fun m => decide (m.source = u) || decide (m.target = u))).length

/-- `fetchCandidatePairs` (consolidator.ts 329–362): all entity pairs of the
group with `a.uuid < b.uuid`, different names, and case-insensitive name
containment one way or the other. -/
def fetchCandidatePairs (s : GraphState) (gid : Str) : List EntityCandidate :=
  let group := s.entities.filter (fun e => decide (e.groupId = gid))
  (group.product group).filterMap (fun ab =>
    if strLt ab.1.uuid ab.2.uuid && !(decide (ab.1.name = ab.2.name)) &&
       (listContainsSub (strToLower ab.1.name) (strToLower ab.2.name) ||
        listContainsSub (strToLower ab.2.name) (strToLower ab.1.name)) then
      some
        { uuidA := ab.1.uuid
          nameA := ab.1.name
          embA := ab.1.summaryEmbedding
          degreeA := entityDegree s ab.1.uuid
          uuidB := ab.2.uuid
          nameB := ab.2.name
          embB := ab.2.summaryEmbedding
          degreeB := entityDegree s ab.2.uuid }
    else none)

/-- Similarity of a candidate pair (consolidator.ts 372–385): the embedding
cosine when both embeddings exist; otherwise the name-length quotient
`shorter.length / longer.length`, discarded (`none`) below 0.6. -/
noncomputable def candidateSimilarity (c : EntityCandidate) : Option ℝ :=
  match c.embA, c.embB with
  | some ea, some eb => some (cosineSimilarity ea eb)
  | _, _ =>
    let shorter := if c.nameA.length < c.nameB.length then c.nameA else c.nameB
    let longer := if c.nameA.length ≥ c.nameB.length then c.nameA else c.nameB
    let sim := (shorter.length : ℝ) / (longer.length : ℝ)
    if sim < 0.6 then none else some sim

/-- Canonical choice (consolidator.ts 389–402): the canonical is A exactly
when `degreeA > degreeB || (degreeA === degreeB && nameA.length >= nameB.length)`. -/
noncomputable def mkScoredPair (c : EntityCandidate) (similarity : ℝ) : ScoredPair :=
  if c.degreeA > c.degreeB ∨ (c.degreeA = c.degreeB ∧ c.nameB.length ≤ c.nameA.length) then
    { toEntityCandidate := c, similarity := similarity,
      canonicalUuid := c.uuidA, canonicalName := c.nameA,
      duplicateUuid := c.uuidB, duplicateName := c.nameB }
  else
    { toEntityCandidate := c, similarity := similarity,
      canonicalUuid := c.uuidB, canonicalName := c.nameB,
      duplicateUuid := c.uuidA, duplicateName := c.nameA }

/-- Loop body of `scorePairs` (consolidator.ts 369–403), in list order: score,
drop below the threshold, choose the canonical. -/
noncomputable def scorePairsRaw : List EntityCandidate → ℝ → List ScoredPair
  | [], _ => []
  | c :: rest, threshold =>
    match candidateSimilarity c with
    | none => scorePairsRaw rest threshold
    | some similarity =>
      if similarity < threshold then scorePairsRaw rest threshold
      else mkScoredPair c similarity :: scorePairsRaw rest threshold

/-- `scorePairs`: the loop above followed by the descending sort
`(a, b) => b.similarity - a.similarity`. -/
noncomputable def scorePairs (candidates : List EntityCandidate) (threshold : ℝ) :
    List ScoredPair :=
  (scorePairsRaw candidates threshold).mergeSort (fun a b => decide (b.similarity ≤ a.similarity))

/-- `DETACH DELETE` of an entity node: the node and every incident edge go. -/
def detachDeleteEntity (s : GraphState) (u : Str) : GraphState :=
  { s with
    entities := s.entities.filter (fun e => !(decide (e.uuid = u)))
    rels := s.rels.filter (fun r => !(decide (r.source = u) || decide (r.target = u)))
    mentions := s.mentions.filter (fun m => !(decide (m.source = u) || decide (m.target = u)))
    hasMember := s.hasMember.filter (fun h => !(decide (h.target = u))) }

/-- Steps 1–2 of `mergeEntities`: redirect the duplicate's outgoing
(respectively incoming) `RELATES_TO` edges to the canonical node, merging by
edge uuid and carrying over all properties; the original edge is left for the
final `DETACH DELETE`. -/
def redirectRels (s : GraphState) (canonicalUuid duplicateUuid gid : Str)
    (outgoing : Bool) : GraphState :=
  if s.entities.any (fun e => decide (e.uuid = duplicateUuid)) &&
     s.entities.any (fun e => decide (e.uuid = canonicalUuid)) then
    let matched := s.rels.filter (fun r =>
      if outgoing then
        decide (r.source = duplicateUuid) &&
        s.entities.any (fun o => decide (o.uuid = r.target ∧ o.groupId = gid)) &&
        !(decide (r.target = canonicalUuid))
      else
        decide (r.target = duplicateUuid) &&
        s.entities.any (fun o => decide (o.uuid = r.source ∧ o.groupId = gid)) &&
        !(decide (r.source = canonicalUuid)))
    matched.foldl (fun st r =>
      saveRelEdge st (if outgoing then { r with source := canonicalUuid }
                      else { r with target := canonicalUuid })) s
  else s

/-- Step 3 of `mergeEntities`: `MENTIONS` edges from episodes of the group to
the duplicate are re-created (same uuid) toward the canonical node and the
originals deleted; net effect, a retarget. -/
def redirectMentions (s : GraphState) (canonicalUuid duplicateUuid gid : Str) : GraphState :=
  if s.entities.any (fun e => decide (e.uuid = canonicalUuid)) then
    { s with mentions := s.mentions.map (fun m =>
        if m.target = duplicateUuid ∧
           (s.episodes.any (fun ep => decide (ep.uuid = m.source ∧ ep.groupId = gid))) = true
        then { m with target := canonicalUuid } else m) }
  else s

/-- `mergeEntities` (consolidator.ts 416–480). -/
def mergeEntities (s : GraphState) (canonicalUuid duplicateUuid gid : Str) : GraphState :=
  let s1 := redirectRels s canonicalUuid duplicateUuid gid true
  let s2 := redirectRels s1 canonicalUuid duplicateUuid gid false
  let s3 := redirectMentions s2 canonicalUuid duplicateUuid gid
  detachDeleteEntity s3 duplicateUuid

/-- Orphaned `RELATES_TO` edges of the group: empty `episodes` list. -/
def orphanRels (s : GraphState) (gid : Str) : List RelEdge :=
  s.rels.filter (fun r => decide (r.groupId = gid) && r.episodes.isEmpty)

/-- `pruneOrphanedEdges` (consolidator.ts 488–500): deletes every orphaned
edge of the group.  The returned count comes from
`WITH r, count(r) AS total … RETURN total` — an aggregation grouped by `r`, so
each row reports 1 and `result[0]?.total ?? 0` is 1 when anything was deleted
and 0 otherwise. -/
def pruneOrphanedEdges (s : GraphState) (gid : Str) : GraphState × Nat :=
  ({ s with rels := s.rels.filter (fun r =>
      !(decide (r.groupId = gid) && r.episodes.isEmpty)) },
   if (orphanRels s gid).isEmpty then 0 else 1)

/-- The greedy merge loop of `Pruner.run` (consolidator.ts 293–313): walk the
scored pairs in order, skip a pair when either endpoint is in `alreadyMerged`,
otherwise merge (unless `dryRun`), record the duplicate as merged and push the
pair onto the report. -/
noncomputable def pruneGreedy (gid : Str) (dryRun : Bool) :
    GraphState → List Str → List MergedPair → List ScoredPair →
    GraphState × List Str × List MergedPair
  | s, alreadyMerged, acc, [] => (s, alreadyMerged, acc)
  | s, alreadyMerged, acc, p :: rest =>
    if p.canonicalUuid ∈ alreadyMerged ∨ p.duplicateUuid ∈ alreadyMerged then
      pruneGreedy gid dryRun s alreadyMerged acc rest
    else
      let s1 := if dryRun then s else mergeEntities s p.canonicalUuid p.duplicateUuid gid
      pruneGreedy gid dryRun s1 (alreadyMerged ++ [p.duplicateUuid])
        (acc ++ [{ canonical := p.canonicalName, duplicate := p.duplicateName,
                   similarity := p.similarity }]) rest

/-- `Pruner.run` (consolidator.ts 278–320). -/
noncomputable def prunerRun (s : GraphState) (gid : Str) (opts : SleepOptions) :
    PruningReport × GraphState :=
  let threshold := opts.similarityThreshold.getD 0.88
  let dryRun := opts.dryRun.getD false
  let candidates := fetchCandidatePairs s gid
  let scored := scorePairs candidates threshold
  let r := pruneGreedy gid dryRun s [] [] scored
  let r2 := if dryRun then (r.1, 0) else pruneOrphanedEdges r.1 gid
  ({ entitiesMerged := r.2.2.length, mergedPairs := r.2.2, edgesPruned := r2.2 }, r2.1)

/-- The pair-selection function underlying the greedy loop: which scored pairs
are actually merged, given an initial merged-away set. -/
def greedySelect : List Str → List ScoredPair → List ScoredPair
  | _, [] => []
  | merged, p :: rest =>
    if p.canonicalUuid ∈ merged ∨ p.duplicateUuid ∈ merged then greedySelect merged rest
    else p :: greedySelect (merged ++ [p.duplicateUuid]) rest

theorem mkScoredPair_cand (c : EntityCandidate) (sim : ℝ) :
    (mkScoredPair c sim).toEntityCandidate = c ∧ (mkScoredPair c sim).similarity = sim := by
  unfold mkScoredPair
  split <;> exact ⟨rfl, rfl⟩

theorem mkScoredPair_canonical (c : EntityCandidate) (sim : ℝ) :
    (c.degreeA > c.degreeB →
      (mkScoredPair c sim).canonicalUuid = c.uuidA ∧
      (mkScoredPair c sim).duplicateUuid = c.uuidB) ∧
    (c.degreeB > c.degreeA →
      (mkScoredPair c sim).canonicalUuid = c.uuidB ∧
      (mkScoredPair c sim).duplicateUuid = c.uuidA) ∧
    (c.degreeA = c.degreeB → c.nameB.length < c.nameA.length →
      (mkScoredPair c sim).canonicalUuid = c.uuidA ∧
      (mkScoredPair c sim).duplicateUuid = c.uuidB) ∧
    (c.degreeA = c.degreeB → c.nameA.length < c.nameB.length →
      (mkScoredPair c sim).canonicalUuid = c.uuidB ∧
      (mkScoredPair c sim).duplicateUuid = c.uuidA) := by
  unfold mkScoredPair
  refine ⟨?_, ?_, ?_, ?_⟩
  · intro h
    rw [if_pos (Or.inl h)]
    exact ⟨rfl, rfl⟩
  · intro h
    rw [if_neg ?_]
    · exact ⟨rfl, rfl⟩
    · rintro (h1 | ⟨h1, _⟩)
      · omega
      · omega
  · intro h1 h2
    rw [if_pos (Or.inr ⟨h1, Nat.le_of_lt h2⟩)]
    exact ⟨rfl, rfl⟩
  · intro h1 h2
    rw [if_neg ?_]
    · exact ⟨rfl, rfl⟩
    · rintro (h | ⟨_, h⟩)
      · omega
      · omega

theorem scorePairsRaw_mem (cands : List EntityCandidate) (t : ℝ) (p : ScoredPair)
    (hp : p ∈ scorePairsRaw cands t) :
    ∃ c sim, candidateSimilarity c = some sim ∧ ¬ sim < t ∧ p = mkScoredPair c sim := by
  induction cands with
  | nil => simp [scorePairsRaw] at hp
  | cons c rest ih =>
    unfold scorePairsRaw at hp
    split at hp
    · exact ih hp
    · rename_i sim hs
      split at hp
      · exact ih hp
      · rename_i hlt
        rcases List.mem_cons.mp hp with hp1 | hp2
        · exact ⟨c, sim, hs, hlt, hp1⟩
        · exact ih hp2

theorem pruneGreedy_pairs (gid : Str) (dry : Bool) (l : List ScoredPair) :
    ∀ (s : GraphState) (merged : List Str) (acc : List MergedPair),
    (pruneGreedy gid dry s merged acc l).2.2
      = acc ++ (greedySelect merged l).map (fun p =>
          { canonical := p.canonicalName, duplicate := p.duplicateName,
            similarity := p.similarity }) := by
  induction l with
  | nil => intro s merged acc; simp [pruneGreedy, greedySelect]
  | cons p rest ih =>
    intro s merged acc
    unfold pruneGreedy greedySelect
    by_cases h : p.canonicalUuid ∈ merged ∨ p.duplicateUuid ∈ merged
    · rw [if_pos h, if_pos h]
      exact ih s merged acc
    · rw [if_neg h, if_neg h]
      rw [ih]
      simp

theorem greedySelect_sublist (l : List ScoredPair) :
    ∀ merged, List.Sublist (greedySelect merged l) l := by
  induction l with
  | nil => intro merged; simp [greedySelect]
  | cons p rest ih =>
    intro merged
    unfold greedySelect
    by_cases h : p.canonicalUuid ∈ merged ∨ p.duplicateUuid ∈ merged
    · rw [if_pos h]
      exact (ih merged).cons p
    · rw [if_neg h]
      exact (ih (merged ++ [p.duplicateUuid])).cons₂ p

theorem greedySelect_avoid (l : List ScoredPair) :
    ∀ merged, ∀ q ∈ greedySelect merged l,
      q.canonicalUuid ∉ merged ∧ q.duplicateUuid ∉ merged := by
  induction l with
  | nil => intro merged q hq; simp [greedySelect] at hq
  | cons p rest ih =>
    intro merged q hq
    unfold greedySelect at hq
    by_cases h : p.canonicalUuid ∈ merged ∨ p.duplicateUuid ∈ merged
    · rw [if_pos h] at hq
      exact ih merged q hq
    · rw [if_neg h] at hq
      rcases List.mem_cons.mp hq with hq1 | hq2
      · subst hq1
        exact ⟨fun hc => h (Or.inl hc), fun hc => h (Or.inr hc)⟩
      · have := ih (merged ++ [p.duplicateUuid]) q hq2
        simp only [List.mem_append, List.mem_singleton] at this
        exact ⟨fun hc => this.1 (Or.inl hc), fun hc => this.2 (Or.inl hc)⟩

theorem greedySelect_pairwise (l : List ScoredPair) :
    ∀ merged, (greedySelect merged l).Pairwise (fun p q =>
      q.canonicalUuid ≠ p.duplicateUuid ∧ q.duplicateUuid ≠ p.duplicateUuid) := by
  induction l with
  | nil => intro merged; simp [greedySelect]
  | cons p rest ih =>
    intro merged
    unfold greedySelect
    by_cases h : p.canonicalUuid ∈ merged ∨ p.duplicateUuid ∈ merged
    · rw [if_pos h]
      exact ih merged
    · rw [if_neg h]
      refine List.Pairwise.cons ?_ (ih (merged ++ [p.duplicateUuid]))
      intro q hq
      have := greedySelect_avoid rest (merged ++ [p.duplicateUuid]) q hq
      simp only [List.mem_append, List.mem_singleton] at this
      exact ⟨fun hc => this.1 (Or.inr hc), fun hc => this.2 (Or.inr hc)⟩

theorem greedySelect_complete (l : List ScoredPair) :
    ∀ merged p, p ∈ l → p ∉ greedySelect merged l →
      (p.canonicalUuid ∈ merged ∨ p.duplicateUuid ∈ merged) ∨
      ∃ q ∈ greedySelect merged l,
        p.canonicalUuid = q.duplicateUuid ∨ p.duplicateUuid = q.duplicateUuid := by
  induction l with
  | nil => intro merged p hp; simp at hp
  | cons r rest ih =>
    intro merged p hp hnot
    unfold greedySelect at hnot ⊢
    by_cases h : r.canonicalUuid ∈ merged ∨ r.duplicateUuid ∈ merged
    · rw [if_pos h] at hnot ⊢
      rcases List.mem_cons.mp hp with hp1 | hp2
      · subst hp1
        exact Or.inl h
      · exact ih merged p hp2 hnot
    · rw [if_neg h] at hnot ⊢
      rcases List.mem_cons.mp hp with hp1 | hp2
      · subst hp1
        exact absurd (List.mem_cons_self p _) hnot
      · have hnot2 : p ∉ greedySelect (merged ++ [r.duplicateUuid]) rest :=
          fun hc => hnot (List.mem_cons_of_mem r hc)
        rcases ih (merged ++ [r.duplicateUuid]) p hp2 hnot2 with hin | ⟨q, hq, hor⟩
        · simp only [List.mem_append, List.mem_singleton] at hin
          rcases hin with (hc | hc) | (hc | hc)
          · exact Or.inl (Or.inl hc)
          · exact Or.inr ⟨r, List.mem_cons_self r _, Or.inl hc⟩
          · exact Or.inl (Or.inr hc)
          · exact Or.inr ⟨r, List.mem_cons_self r _, Or.inr hc⟩
        · exact Or.inr ⟨q, List.mem_cons_of_mem r hq, hor⟩

/-- C6: in sleep Phase 2, the scored pairs are sorted descending by
similarity; every pair passing the threshold names as canonical the endpoint
with the higher degree, ties broken in favour of the longer name; the merged
pairs reported by the greedy loop are exactly the `greedySelect` selection,
which processes pairs in that order and skips a pair exactly when one of its
endpoints was already merged away (soundness and completeness below). -/
theorem c6_greedy_merge_canonical_choice (candidates : List EntityCandidate)
    (threshold : ℝ) (s : GraphState) (gid : Str) (dry : Bool) :
    (scorePairs candidates threshold).Pairwise (fun p q => q.similarity ≤ p.similarity) ∧
    (∀ p ∈ scorePairs candidates threshold,
      ¬ p.similarity < threshold ∧
      (p.degreeA > p.degreeB → p.canonicalUuid = p.uuidA ∧ p.duplicateUuid = p.uuidB) ∧
      (p.degreeB > p.degreeA → p.canonicalUuid = p.uuidB ∧ p.duplicateUuid = p.uuidA) ∧
      (p.degreeA = p.degreeB → p.nameB.length < p.nameA.length →
        p.canonicalUuid = p.uuidA ∧ p.duplicateUuid = p.uuidB) ∧
      (p.degreeA = p.degreeB → p.nameA.length < p.nameB.length →
        p.canonicalUuid = p.uuidB ∧ p.duplicateUuid = p.uuidA)) ∧
    ((pruneGreedy gid dry s [] [] (scorePairs candidates threshold)).2.2
      = (greedySelect [] (scorePairs candidates threshold)).map (fun p =>
          { canonical := p.canonicalName, duplicate := p.duplicateName,
            similarity := p.similarity })) ∧
    (List.Sublist (greedySelect [] (scorePairs candidates threshold)) (scorePairs candidates threshold)) ∧
    ((greedySelect [] (scorePairs candidates threshold)).Pairwise (fun p q =>
      q.canonicalUuid ≠ p.duplicateUuid ∧ q.duplicateUuid ≠ p.duplicateUuid)) ∧
    (∀ p ∈ scorePairs candidates threshold,
      p ∉ greedySelect [] (scorePairs candidates threshold) →
      ∃ q ∈ greedySelect [] (scorePairs candidates threshold),
        p.canonicalUuid = q.duplicateUuid ∨ p.duplicateUuid = q.duplicateUuid) := by
  refine ⟨?_, ?_, ?_, greedySelect_sublist _ _, greedySelect_pairwise _ _, ?_⟩
  · have hsorted := @List.sorted_mergeSort ScoredPair
      (fun a b : ScoredPair => decide (b.similarity ≤ a.similarity))
      (fun x y z hxy hyz => by
        simp only [decide_eq_true_eq] at hxy hyz ⊢
        exact le_trans hyz hxy)
      (fun x y => by
        rcases le_total x.similarity y.similarity with h | h <;> simp [h])
      (scorePairsRaw candidates threshold)
    exact hsorted.imp (fun h => by simpa using h)
  · intro p hmem
    have hraw : p ∈ scorePairsRaw candidates threshold :=
      (List.mergeSort_perm _ _).mem_iff.mp hmem
    rcases scorePairsRaw_mem candidates threshold p hraw with ⟨c, sim, _, hlt, rfl⟩
    have hc := mkScoredPair_cand c sim
    have hcan := mkScoredPair_canonical c sim
    constructor
    · rw [hc.2]
      exact hlt
    · have hdA : (mkScoredPair c sim).degreeA = c.degreeA := by rw [hc.1]
      have hdB : (mkScoredPair c sim).degreeB = c.degreeB := by rw [hc.1]
      have hnA : (mkScoredPair c sim).nameA = c.nameA := by rw [hc.1]
      have hnB : (mkScoredPair c sim).nameB = c.nameB := by rw [hc.1]
      have huA : (mkScoredPair c sim).uuidA = c.uuidA := by rw [hc.1]
      have huB : (mkScoredPair c sim).uuidB = c.uuidB := by rw [hc.1]
      rw [hdA, hdB, hnA, hnB, huA, huB]
      exact hcan
  · exact pruneGreedy_pairs gid dry _ s [] []
  · intro p hmem hnot
    rcases greedySelect_complete _ [] p hmem hnot with hin | h
    · simp at hin
    · exact h

/-- Embedding-less candidate fixture: names of lengths 9 and 8, degrees 0. -/
def candC6 : EntityCandidate :=
  { uuidA := [ 'a' ], nameA := [ 'a', 'b', 'c', 'd', 'e', 'f', 'g', 'h', 'i' ],
    embA := none, degreeA := 0,
    uuidB := [ 'b' ], nameB := [ 'a', 'b', 'c', 'd', 'e', 'f', 'g', 'h' ],
    embB := none, degreeB := 0 }

/-- C6 (witness): the fixture pair passes the 0.88 threshold with name-length
similarity 8/9 and — equal degrees, `nameA` longer — the canonical is A. -/
theorem c6_greedy_merge_canonical_choice_witness :
    ∃ p ∈ scorePairs [candC6] (0.88 : ℝ),
      p.canonicalUuid = candC6.uuidA ∧ p.duplicateUuid = candC6.uuidB := by
  have hsim : candidateSimilarity candC6 = some ((8 : ℝ) / 9) := by
    unfold candidateSimilarity candC6
    norm_num
  have hraw : scorePairsRaw [candC6] (0.88 : ℝ) = [mkScoredPair candC6 ((8 : ℝ) / 9)] := by
    unfold scorePairsRaw
    simp only [hsim]
    rw [if_neg (by norm_num)]
    rw [show scorePairsRaw [] (0.88 : ℝ) = [] from rfl]
  have hscored : scorePairs [candC6] (0.88 : ℝ) = [mkScoredPair candC6 ((8 : ℝ) / 9)] := by
    unfold scorePairs
    rw [hraw, List.mergeSort_singleton]
  have h := (c6_greedy_merge_canonical_choice [candC6] (0.88 : ℝ) stateC1 gidT
    true).2.1 (mkScoredPair candC6 ((8 : ℝ) / 9))
    (by rw [hscored]; exact List.mem_singleton.mpr rfl)
  refine ⟨mkScoredPair candC6 ((8 : ℝ) / 9),
    by rw [hscored]; exact List.mem_singleton.mpr rfl, ?_⟩
  have h4 := h.2.2.2.1 rfl (by decide)
  have hc := mkScoredPair_cand candC6 ((8 : ℝ) / 9)
  constructor
  · have := h4.1
    rwa [show (mkScoredPair candC6 ((8 : ℝ) / 9)).uuidA = candC6.uuidA by rw [hc.1]] at this
  · have := h4.2
    rwa [show (mkScoredPair candC6 ((8 : ℝ) / 9)).uuidB = candC6.uuidB by rw [hc.1]] at this

/-! ## Sleep Phase 1: Consolidator (consolidator.ts 52–219) -/

/-- `EntityCluster` (consolidator.ts 41–48). -/
structure EntityCluster where
  uuid : Str
  name : Str
  entityType : Str
  currentSummary : Str
  episodeUuids : List Str
  episodeContents : List Str

/-- `ConsolidationReport`. -/
structure ConsolidationReport where
  entitiesRefreshed : Nat
  episodesConsolidated : Nat
  tokensUsed : Nat
  entitiesProcessed : List Str
deriving DecidableEq

/-- `CommunitySummarySchema` payload (community-builder.ts 141–150). -/
structure CommunitySummary where
  name : Str
  summary : Str
  domainHints : List Str
  importanceScore : ℚ

/-- The LLM and embedder collaborators of the sleep engine, as deterministic
oracles; a structured call that fails (and is caught) is `none`.  The
community summariser is called without a catch, so it is total here, and
`freshCommunityUuid` supplies the `uuidv4()` values for new communities. -/
structure SleepOracles where
  consolidateLLM : EntityCluster → Option (Str × ℚ)
  embed : Str → List ℝ
  communityLLM : List LouvainEntity → CommunitySummary
  freshCommunityUuid : Nat → Str

/-- `estimateTokens` (consolidator.ts 217–219): `Math.ceil(length / 4)`. -/
def estimateTokens (t : Str) : Nat := (t.length + 3) / 4

/-- `buildPrompt` (consolidator.ts 160–182); the prompt's fixed template text
is omitted here — the prompt only feeds the LLM oracle (which receives the
cluster itself) and the token estimate. -/
def buildPrompt (cluster : EntityCluster) : Str :=
  cluster.name ++ cluster.entityType ++ cluster.currentSummary ++
    cluster.episodeContents.foldl (fun a b => a ++ b) []

/-- `fetchEntityClusters` (consolidator.ts 122–158): per entity of the group,
the distinct unconsolidated episodes older than the cooldown that mention it;
keep clusters of at least `minEpisodes` episodes, order by episode count
descending, cut at `maxEntities`. -/
def fetchEntityClusters (s : GraphState) (gid : Str) (now : Millis)
    (cooldownMinutes : Int) (minEpisodes maxEntities : Nat) : List EntityCluster :=
  let eligible := s.episodes.filter (fun ep =>
    decide (ep.groupId = gid) && ep.consolidatedAt.isNone &&
    decide (ep.createdAt ≤ now - cooldownMinutes * 60000))
  let rows := (s.entities.filter (fun e => decide (e.groupId = gid))).filterMap (fun e =>
    let eps := eligible.filter (fun ep =>
      s.mentions.any (fun m => decide (m.source = ep.uuid ∧ m.target = e.uuid)))
    if eps.isEmpty then none
    else some
      { uuid := e.uuid
        name := e.name
        entityType := e.entityType
        currentSummary := e.summary
        episodeUuids := (eps.map (fun ep => ep.uuid)).dedup
        episodeContents := (eps.map (fun ep => ep.content)).dedup })
  let kept := rows.filter (fun c => decide (minEpisodes ≤ c.episodeUuids.length))
  (kept.mergeSort (fun a b =>
    decide (b.episodeUuids.length ≤ a.episodeUuids.length))).take maxEntities

/-- `updateEntity` (consolidator.ts 184–199). -/
def consolidatorUpdateEntity (s : GraphState) (uuid newSummary : Str)
    (embedding : List ℝ) (now : Millis) : GraphState :=
  { s with entities := s.entities.map (fun e =>
      if e.uuid = uuid then
        { e with
          summary := newSummary
          summaryEmbedding := some embedding
          embedding := some embedding
          consolidatedAt := some now }
      else e) }

/-- `markConsolidated` (consolidator.ts 201–211). -/
def markConsolidated (s : GraphState) (uuids : List Str) (now : Millis) : GraphState :=
  if uuids.isEmpty then s
  else
    { s with episodes := s.episodes.map (fun ep =>
        if ep.uuid ∈ uuids then { ep with consolidatedAt := some now } else ep) }

/-- One iteration of the cluster loop of `Consolidator.run`
(consolidator.ts 78–115). -/
noncomputable def consolidatorStep (ora : SleepOracles) (now : Millis) (dryRun : Bool)
    (acc : ConsolidationReport × GraphState) (cluster : EntityCluster) :
    ConsolidationReport × GraphState :=
  match ora.consolidateLLM cluster with
  | none => acc
  | some synth =>
    let rep1 := { acc.1 with tokensUsed := acc.1.tokensUsed +
      (estimateTokens (buildPrompt cluster) + estimateTokens synth.1) }
    if dryRun then
      ({ rep1 with
          entitiesProcessed := rep1.entitiesProcessed ++ [cluster.name]
          entitiesRefreshed := rep1.entitiesRefreshed + 1
          episodesConsolidated := rep1.episodesConsolidated + cluster.episodeUuids.length },
       acc.2)
    else
      let embedding := ora.embed synth.1
      let s1 := consolidatorUpdateEntity acc.2 cluster.uuid synth.1 embedding now
      let s2 := markConsolidated s1 cluster.episodeUuids now
      ({ rep1 with
          entitiesRefreshed := rep1.entitiesRefreshed + 1
          episodesConsolidated := rep1.episodesConsolidated + cluster.episodeUuids.length
          entitiesProcessed := rep1.entitiesProcessed ++ [cluster.name] },
       s2)

/-- `Consolidator.run` (consolidator.ts 59–118). -/
noncomputable def consolidatorRun (ora : SleepOracles) (s : GraphState) (gid : Str)
    (opts : SleepOptions) (now : Millis) : ConsolidationReport × GraphState :=
  let cooldown := opts.cooldownMinutes.getD 5
  let minEpisodes := opts.minEpisodes.getD 2
  let maxEntities := opts.maxEntities.getD 50
  let dryRun := opts.dryRun.getD false
  let clusters := fetchEntityClusters s gid now cooldown minEpisodes maxEntities
  clusters.foldl (consolidatorStep ora now dryRun)
    ({ entitiesRefreshed := 0, episodesConsolidated := 0, tokensUsed := 0,
       entitiesProcessed := [] }, s)

theorem consolidatorStep_dry_state (ora : SleepOracles) (now : Millis)
    (acc : ConsolidationReport × GraphState) (cluster : EntityCluster) :
    (consolidatorStep ora now true acc cluster).2 = acc.2 := by
  unfold consolidatorStep
  cases ora.consolidateLLM cluster <;> simp

theorem consolidatorFold_dry_state (ora : SleepOracles) (now : Millis)
    (clusters : List EntityCluster) :
    ∀ acc : ConsolidationReport × GraphState,
    (clusters.foldl (consolidatorStep ora now true) acc).2 = acc.2 := by
  induction clusters with
  | nil => intro acc; rfl
  | cons c rest ih =>
    intro acc
    rw [List.foldl_cons, ih, consolidatorStep_dry_state]

theorem consolidatorStep_report (ora : SleepOracles) (now : Millis) (dry : Bool)
    (acc : ConsolidationReport × GraphState) (cluster : EntityCluster) :
    (consolidatorStep ora now dry acc cluster).1 =
    (consolidatorStep ora now true acc cluster).1 := by
  unfold consolidatorStep
  cases ora.consolidateLLM cluster with
  | none => rfl
  | some synth => cases dry <;> simp

theorem consolidatorFold_report (ora : SleepOracles) (now : Millis) (dry : Bool)
    (clusters : List EntityCluster) :
    ∀ (rep : ConsolidationReport) (s s2 : GraphState),
    (clusters.foldl (consolidatorStep ora now dry) (rep, s)).1 =
    (clusters.foldl (consolidatorStep ora now true) (rep, s2)).1 := by
  induction clusters with
  | nil => intro rep s s2; rfl
  | cons c rest ih =>
    intro rep s s2
    rw [List.foldl_cons, List.foldl_cons]
    have h1 : (consolidatorStep ora now dry (rep, s) c).1 =
        (consolidatorStep ora now true (rep, s2) c).1 := by
      rw [consolidatorStep_report]
      unfold consolidatorStep
      cases ora.consolidateLLM c <;> simp
    rcases hd : consolidatorStep ora now dry (rep, s) c with ⟨repd, sd⟩
    rcases ht : consolidatorStep ora now true (rep, s2) c with ⟨rept, st⟩
    have : repd = rept := by
      have := h1
      rw [hd, ht] at this
      exact this
    subst this
    exact ih repd sd st

/-! ## Sleep Phase 3: CommunityBuilder (community-builder.ts 154–382) -/

/-- `CommunityReport` (sleep/types.ts). -/
structure CommunityReport where
  skipped : Bool
  communitiesBuilt : Nat
  communitiesRemoved : Nat
  entityCount : Nat
deriving DecidableEq

/-- An existing Community row of the stability query (community-builder.ts
247–259): uuid, name, and the (deduplicated, Set-semantics) member uuids
collected over `HAS_MEMBER` edges to Entity nodes. -/
structure ExistingCommunity where
  uuid : Str
  name : Str
  memberUuids : List Str

/-- Existing communities of the group with their member sets. -/
def fetchExistingCommunities (s : GraphState) (gid : Str) : List ExistingCommunity :=
  (s.communities.filter (fun c => decide (c.groupId = gid))).map (fun c =>
    { uuid := c.uuid
      name := c.name
      memberUuids := ((s.hasMember.filter (fun h =>
        decide (h.source = c.uuid) &&
        s.entities.any (fun e => decide (e.uuid = h.target)))).map
          (fun h => h.target)).dedup })

/-- Jaccard-based UUID-stability matching (community-builder.ts 269–281): the
best not-yet-claimed existing community with overlap ≥ 0.7, preferring the
larger overlap. -/
def jaccardMatch (existing : List ExistingCommunity) (used : List Str)
    (memberUuids : List Str) : Option Str :=
  (existing.foldl (fun (acc : ℚ × Option Str) ec =>
    if ec.uuid ∈ used then acc
    else
      let inter := (memberUuids.filter (fun u => decide (u ∈ ec.memberUuids))).length
      let union := (memberUuids ++ ec.memberUuids.filter
        (fun u => !(decide (u ∈ memberUuids)))).length
      let jaccard : ℚ := if union > 0 then (inter : ℚ) / (union : ℚ) else 0
      if jaccard ≥ mkRat 7 10 ∧ jaccard > acc.1 then (jaccard, some ec.uuid) else acc)
    ((0 : ℚ), none)).2

/-- Upsert of a Community node (community-builder.ts 316–344):
`MERGE (c:Community {uuid}) SET …`, keeping `createdAt` via `COALESCE`. -/
noncomputable def upsertCommunity (s : GraphState) (uuid : Str) (gid : Str)
    (data : CommunitySummary) (emb : List ℝ) (memberUuids : List Str)
    (memberCount entityCount : Nat) (now : Millis) : GraphState :=
  if s.communities.any (fun c => decide (c.uuid = uuid)) then
    { s with communities := s.communities.map (fun c =>
        if c.uuid = uuid then
          { c with
            name := data.name
            communityLevel := 0
            summary := data.summary
            summaryEmbedding := some emb
            embedding := some emb
            groupId := gid
            memberEntityIds := memberUuids
            memberCount := memberCount
            domainHints := data.domainHints
            importanceScore := data.importanceScore
            entityCountAtLastRebuild := some (entityCount : Int)
            lastFullRebuild := some now }
        else c) }
  else
    { s with communities := s.communities ++
        [{ uuid := uuid
           groupId := gid
           name := data.name
           communityLevel := 0
           summary := data.summary
           summaryEmbedding := some emb
           embedding := some emb
           memberEntityIds := memberUuids
           memberCount := memberCount
           domainHints := data.domainHints
           importanceScore := data.importanceScore
           entityCountAtLastRebuild := some (entityCount : Int)
           lastFullRebuild := some now
           createdAt := now }] }

/-- Rebuild of the `HAS_MEMBER` edges of a community
(community-builder.ts 347–358): delete all existing ones, then one `MERGE`
per member (the created edges carry no properties). -/
def rebuildHasMember (s : GraphState) (communityUuid : Str) (memberUuids : List Str) :
    GraphState :=
  let s1 := { s with hasMember := s.hasMember.filter (fun h =>
    !(decide (h.source = communityUuid))) }
  { s1 with hasMember := s1.hasMember ++
      ((memberUuids.filter (fun u => s1.entities.any (fun e => decide (e.uuid = u)))).map
        (fun u => { uuid := [], source := communityUuid, target := u, groupId := [] })) }

/-- One iteration of the `for (const members of validCommunities)` loop
(community-builder.ts 266–359).  The accumulator carries the claimed existing
uuids, the build count (also used as the fresh-uuid index), and the store. -/
noncomputable def communityStep (ora : SleepOracles) (gid : Str) (now : Millis)
    (dryRun : Bool) (existing : List ExistingCommunity) (entityCount : Nat)
    (acc : List Str × Nat × GraphState) (members : List LouvainEntity) :
    List Str × Nat × GraphState :=
  let memberUuids := (members.map (fun e => e.uuid)).dedup
  let reuseUuid := jaccardMatch existing acc.1 memberUuids
  let communityUuid := reuseUuid.getD (ora.freshCommunityUuid acc.2.1)
  let used1 := match reuseUuid with
    | some u => acc.1 ++ [u]
    | none => acc.1
  let built1 := acc.2.1 + 1
  if dryRun then (used1, built1, acc.2.2)
  else
    let summaryData := ora.communityLLM (members.take 20)
    let emb := ora.embed summaryData.summary
    let s1 := upsertCommunity acc.2.2 communityUuid gid summaryData emb memberUuids
      members.length entityCount now
    let s2 := rebuildHasMember s1 communityUuid memberUuids
    (used1, built1, s2)

/-- Stale-community removal (community-builder.ts 361–373): `DETACH DELETE`
of every existing Community of the group whose uuid was not reused. -/
def removeStaleCommunities (s : GraphState) (gid : Str) (staleUuids : List Str) :
    GraphState :=
  { s with
    communities := s.communities.filter (fun c =>
      !(decide (c.groupId = gid) && decide (c.uuid ∈ staleUuids)))
    hasMember := s.hasMember.filter (fun h => !(decide (h.source ∈ staleUuids))) }

/-- Entity rows of the community builder (community-builder.ts 168–184):
group entities ordered by `createdAt` descending, mapped to `EntityRecord`s,
dropping empty uuids and names. -/
def builderEntities (s : GraphState) (gid : Str) : List LouvainEntity :=
  (((s.entities.filter (fun e => decide (e.groupId = gid))).mergeSort
    (fun a b => decide (b.createdAt ≤ a.createdAt))).map (fun e =>
      ({ uuid := e.uuid, name := e.name, entityType := e.entityType,
         summary := e.summary } : LouvainEntity))).filter
    (fun e => !e.uuid.isEmpty && !e.name.isEmpty)

/-- Entity count at the last rebuild (community-builder.ts 199–206):
`max(c.entityCountAtLastRebuild)` over the group's communities, 0 if none. -/
def builderLastCount (s : GraphState) (gid : Str) : Int :=
  (((s.communities.filter (fun c =>
    decide (c.groupId = gid) && c.entityCountAtLastRebuild.isSome)).map
      (fun c => c.entityCountAtLastRebuild.getD 0)).max?).getD 0

/-- Entity-entity edge rows (community-builder.ts 220–228). -/
def builderEdges (s : GraphState) (gid : Str) : List LouvainEdge :=
  ((s.rels.filter (fun r =>
    (s.entities.any (fun a => decide (a.uuid = r.source ∧ a.groupId = gid))) &&
    (s.entities.any (fun b => decide (b.uuid = r.target ∧ b.groupId = gid))))).map
      (fun r => ({ source := r.source, target := r.target } : LouvainEdge))).filter
    (fun e => !e.source.isEmpty && !e.target.isEmpty)

/-- Louvain grouping and size filter (community-builder.ts 231–244): group the
entities by community label in insertion order, keep groups of at least
`minCommunitySize` members. -/
def builderValidCommunities (s : GraphState) (gid : Str) (minCommunitySize : Nat) :
    List (List LouvainEntity) :=
  let entities := builderEntities s gid
  let assignments := runLouvain entities (builderEdges s gid)
  let groups := entities.foldl (fun (gs : List (Str × List LouvainEntity)) e =>
    let label := (alGet assignments e.uuid).getD e.uuid
    alSet gs label ((alGet gs label).getD [] ++ [e])) []
  (groups.map (fun g => g.2)).filter (fun ms => decide (minCommunitySize ≤ ms.length))

/-- `CommunityBuilder.run` (community-builder.ts 161–381). -/
noncomputable def communityBuilderRun (ora : SleepOracles) (s : GraphState) (gid : Str)
    (opts : SleepOptions) (now : Millis) : CommunityReport × GraphState :=
  let minGraphSize := opts.minGraphSize.getD 15
  let minCommunitySize := opts.minCommunitySize.getD 3
  let rebuildThreshold := opts.rebuildThreshold.getD 10
  let dryRun := opts.dryRun.getD false
  let entities := builderEntities s gid
  if entities.length < minGraphSize then
    ({ skipped := true, communitiesBuilt := 0, communitiesRemoved := 0,
       entityCount := entities.length }, s)
  else if (entities.length : Int) - builderLastCount s gid < rebuildThreshold then
    ({ skipped := true, communitiesBuilt := 0, communitiesRemoved := 0,
       entityCount := entities.length }, s)
  else
    let validCommunities := builderValidCommunities s gid minCommunitySize
    let existing := fetchExistingCommunities s gid
    let r := validCommunities.foldl
      (communityStep ora gid now dryRun existing entities.length) ([], 0, s)
    let staleUuids := (existing.filter (fun ec => !(decide (ec.uuid ∈ r.1)))).map
      (fun ec => ec.uuid)
    let s2 := if !dryRun && !staleUuids.isEmpty then
        removeStaleCommunities r.2.2 gid staleUuids
      else r.2.2
    ({ skipped := false, communitiesBuilt := r.2.1,
       communitiesRemoved := staleUuids.length, entityCount := entities.length }, s2)

/-! ## SleepEngine.sleep, single-graph mode (engine.ts 135–189) -/

/-- `SleepReport`, restricted to the three phase reports. -/
structure SleepReport where
  phase1Consolidation : ConsolidationReport
  phase2Pruning : PruningReport
  phase3Communities : CommunityReport

/-- Report of a disabled Phase 1. -/
def emptyConsolidationReport : ConsolidationReport :=
  { entitiesRefreshed := 0, episodesConsolidated := 0, tokensUsed := 0,
    entitiesProcessed := [] }

/-- Report of a disabled Phase 2. -/
def emptyPruningReport : PruningReport :=
  { entitiesMerged := 0, mergedPairs := [], edgesPruned := 0 }

/-- Report of a disabled Phase 3. -/
def emptyCommunityReport : CommunityReport :=
  { skipped := true, communitiesBuilt := 0, communitiesRemoved := 0, entityCount := 0 }

/-- `SleepEngine.sleep` with a plain `groupId` target (engine.ts 135–189):
Phase 1 consolidation, Phase 2 pruning, Phase 3 community detection, each
enabled unless its options say `enabled: false`, run in order against the
evolving store. -/
noncomputable def sleepRun (ora : SleepOracles) (s : GraphState) (gid : Str)
    (opts : SleepOptions) (now : Millis) : SleepReport × GraphState :=
  let phase1 := if opts.consolidationEnabled.getD true then
      consolidatorRun ora s gid opts now
    else (emptyConsolidationReport, s)
  let phase2 := if opts.pruningEnabled.getD true then
      prunerRun phase1.2 gid opts
    else (emptyPruningReport, phase1.2)
  let phase3 := if opts.communitiesEnabled.getD true then
      communityBuilderRun ora phase2.2 gid opts now
    else (emptyCommunityReport, phase2.2)
  ({ phase1Consolidation := phase1.1, phase2Pruning := phase2.1,
     phase3Communities := phase3.1 }, phase3.2)

/-- Replace only the `dryRun` flag of an options record. -/
def setDryRun (opts : SleepOptions) (b : Bool) : SleepOptions :=
  { opts with dryRun := some b }

theorem pruneGreedy_dry_state (gid : Str) (l : List ScoredPair) :
    ∀ (s : GraphState) (merged : List Str) (acc : List MergedPair),
    (pruneGreedy gid true s merged acc l).1 = s := by
  induction l with
  | nil => intro s merged acc; rfl
  | cons p rest ih =>
    intro s merged acc
    unfold pruneGreedy
    by_cases h : p.canonicalUuid ∈ merged ∨ p.duplicateUuid ∈ merged
    · rw [if_pos h]
      exact ih s merged acc
    · rw [if_neg h]
      simpa using ih s (merged ++ [p.duplicateUuid]) _

theorem prunerRun_dry (s : GraphState) (gid : Str) (opts : SleepOptions) :
    (prunerRun s gid (setDryRun opts true)).2 = s ∧
    (prunerRun s gid (setDryRun opts true)).1.edgesPruned = 0 ∧
    (prunerRun s gid (setDryRun opts true)).1.mergedPairs
      = (prunerRun s gid (setDryRun opts false)).1.mergedPairs ∧
    (prunerRun s gid (setDryRun opts true)).1.entitiesMerged
      = (prunerRun s gid (setDryRun opts false)).1.entitiesMerged := by
  have hsc : (setDryRun opts true).similarityThreshold = opts.similarityThreshold := rfl
  have hpairs := pruneGreedy_pairs gid true
    (scorePairs (fetchCandidatePairs s gid) (opts.similarityThreshold.getD 0.88)) s [] []
  have hpairs2 := pruneGreedy_pairs gid false
    (scorePairs (fetchCandidatePairs s gid) (opts.similarityThreshold.getD 0.88)) s [] []
  refine ⟨?_, rfl, ?_, ?_⟩
  · show (pruneGreedy gid true s [] []
      (scorePairs (fetchCandidatePairs s gid) (opts.similarityThreshold.getD 0.88))).1 = s
    exact pruneGreedy_dry_state gid _ s [] []
  · show (pruneGreedy gid true s [] []
        (scorePairs (fetchCandidatePairs s gid) (opts.similarityThreshold.getD 0.88))).2.2
      = (pruneGreedy gid false s [] []
        (scorePairs (fetchCandidatePairs s gid) (opts.similarityThreshold.getD 0.88))).2.2
    rw [hpairs, hpairs2]
  · show (pruneGreedy gid true s [] []
        (scorePairs (fetchCandidatePairs s gid) (opts.similarityThreshold.getD 0.88))).2.2.length
      = (pruneGreedy gid false s [] []
        (scorePairs (fetchCandidatePairs s gid) (opts.similarityThreshold.getD 0.88))).2.2.length
    rw [hpairs, hpairs2]

theorem consolidatorRun_dry (ora : SleepOracles) (s : GraphState) (gid : Str)
    (opts : SleepOptions) (now : Millis) :
    (consolidatorRun ora s gid (setDryRun opts true) now).2 = s ∧
    (consolidatorRun ora s gid (setDryRun opts true) now).1
      = (consolidatorRun ora s gid (setDryRun opts false) now).1 := by
  constructor
  · exact consolidatorFold_dry_state ora now _ _
  · show (List.foldl (consolidatorStep ora now true)
        ({ entitiesRefreshed := 0, episodesConsolidated := 0, tokensUsed := 0,
           entitiesProcessed := [] }, s)
        (fetchEntityClusters s gid now (opts.cooldownMinutes.getD 5)
          (opts.minEpisodes.getD 2) (opts.maxEntities.getD 50))).1
      = (List.foldl (consolidatorStep ora now false)
        ({ entitiesRefreshed := 0, episodesConsolidated := 0, tokensUsed := 0,
           entitiesProcessed := [] }, s)
        (fetchEntityClusters s gid now (opts.cooldownMinutes.getD 5)
          (opts.minEpisodes.getD 2) (opts.maxEntities.getD 50))).1
    rw [consolidatorFold_report ora now false _ _ s s]

theorem communityStep_used_built (ora : SleepOracles) (gid : Str) (now : Millis)
    (dry1 dry2 : Bool) (ex : List ExistingCommunity) (ec : Nat)
    (used : List Str) (built : Nat) (s1 s2 : GraphState) (members : List LouvainEntity) :
    (communityStep ora gid now dry1 ex ec (used, built, s1) members).1
      = (communityStep ora gid now dry2 ex ec (used, built, s2) members).1 ∧
    (communityStep ora gid now dry1 ex ec (used, built, s1) members).2.1
      = (communityStep ora gid now dry2 ex ec (used, built, s2) members).2.1 := by
  unfold communityStep
  cases dry1 <;> cases dry2 <;> simp

theorem communityFold_used_built (ora : SleepOracles) (gid : Str) (now : Millis)
    (dry1 dry2 : Bool) (ex : List ExistingCommunity) (ec : Nat)
    (l : List (List LouvainEntity)) :
    ∀ (used : List Str) (built : Nat) (s1 s2 : GraphState),
    (l.foldl (communityStep ora gid now dry1 ex ec) (used, built, s1)).1
      = (l.foldl (communityStep ora gid now dry2 ex ec) (used, built, s2)).1 ∧
    (l.foldl (communityStep ora gid now dry1 ex ec) (used, built, s1)).2.1
      = (l.foldl (communityStep ora gid now dry2 ex ec) (used, built, s2)).2.1 := by
  induction l with
  | nil => intro used built s1 s2; exact ⟨rfl, rfl⟩
  | cons m rest ih =>
    intro used built s1 s2
    rw [List.foldl_cons, List.foldl_cons]
    have hs := communityStep_used_built ora gid now dry1 dry2 ex ec used built s1 s2 m
    rcases h1 : communityStep ora gid now dry1 ex ec (used, built, s1) m with ⟨u1, b1, st1⟩
    rcases h2 : communityStep ora gid now dry2 ex ec (used, built, s2) m with ⟨u2, b2, st2⟩
    rw [h1, h2] at hs
    obtain ⟨hu, hb⟩ := hs
    simp only at hu hb
    subst hu
    subst hb
    exact ih u1 b1 st1 st2

theorem communityStep_dry_state (ora : SleepOracles) (gid : Str) (now : Millis)
    (ex : List ExistingCommunity) (ec : Nat) (acc : List Str × Nat × GraphState)
    (members : List LouvainEntity) :
    (communityStep ora gid now true ex ec acc members).2.2 = acc.2.2 := by
  unfold communityStep
  simp

theorem communityFold_dry_state (ora : SleepOracles) (gid : Str) (now : Millis)
    (ex : List ExistingCommunity) (ec : Nat) (l : List (List LouvainEntity)) :
    ∀ acc : List Str × Nat × GraphState,
    (l.foldl (communityStep ora gid now true ex ec) acc).2.2 = acc.2.2 := by
  induction l with
  | nil => intro acc; rfl
  | cons m rest ih =>
    intro acc
    rw [List.foldl_cons, ih, communityStep_dry_state]

theorem setDryRun_fields (opts : SleepOptions) (b : Bool) :
    (setDryRun opts b).dryRun = some b ∧
    (setDryRun opts b).cooldownMinutes = opts.cooldownMinutes ∧
    (setDryRun opts b).minEpisodes = opts.minEpisodes ∧
    (setDryRun opts b).maxEntities = opts.maxEntities ∧
    (setDryRun opts b).similarityThreshold = opts.similarityThreshold ∧
    (setDryRun opts b).minGraphSize = opts.minGraphSize ∧
    (setDryRun opts b).minCommunitySize = opts.minCommunitySize ∧
    (setDryRun opts b).rebuildThreshold = opts.rebuildThreshold ∧
    (setDryRun opts b).consolidationEnabled = opts.consolidationEnabled ∧
    (setDryRun opts b).pruningEnabled = opts.pruningEnabled ∧
    (setDryRun opts b).communitiesEnabled = opts.communitiesEnabled :=
  ⟨rfl, rfl, rfl, rfl, rfl, rfl, rfl, rfl, rfl, rfl, rfl⟩

theorem communityBuilderRun_dry (ora : SleepOracles) (s : GraphState) (gid : Str)
    (opts : SleepOptions) (now : Millis) :
    (communityBuilderRun ora s gid (setDryRun opts true) now).2 = s ∧
    (communityBuilderRun ora s gid (setDryRun opts true) now).1
      = (communityBuilderRun ora s gid (setDryRun opts false) now).1 := by
  unfold communityBuilderRun
  simp only [setDryRun, Option.getD_some]
  by_cases h1 : (builderEntities s gid).length < opts.minGraphSize.getD 15
  · rw [if_pos h1, if_pos h1]
    exact ⟨rfl, rfl⟩
  · rw [if_neg h1, if_neg h1]
    by_cases h2 : ((builderEntities s gid).length : Int) - builderLastCount s gid <
        opts.rebuildThreshold.getD 10
    · rw [if_pos h2, if_pos h2]
      exact ⟨rfl, rfl⟩
    · rw [if_neg h2, if_neg h2]
      have hub := communityFold_used_built ora gid now true false
        (fetchExistingCommunities s gid) (builderEntities s gid).length
        (builderValidCommunities s gid (opts.minCommunitySize.getD 3)) [] 0 s s
      constructor
      · simp only [Bool.not_true, Bool.false_and, Bool.false_eq_true, ite_false]
        exact communityFold_dry_state ora gid now _ _ _ _
      · simp only [hub.1, hub.2]

theorem setDryRun_consolidationEnabled (opts : SleepOptions) (b : Bool) :
    (setDryRun opts b).consolidationEnabled = opts.consolidationEnabled := rfl

theorem setDryRun_pruningEnabled (opts : SleepOptions) (b : Bool) :
    (setDryRun opts b).pruningEnabled = opts.pruningEnabled := rfl

theorem setDryRun_communitiesEnabled (opts : SleepOptions) (b : Bool) :
    (setDryRun opts b).communitiesEnabled = opts.communitiesEnabled := rfl

/-- C7 (amended): a `dry_run` sleep writes nothing — the store after the run
equals the store before it — and its Phase-1 report (entities_refreshed,
episodes_consolidated, tokens, names) is identical to a non-dry run's on the
same store; its Phase-2 merged pairs and Phase-3 community counts equal those
of a subsequent non-dry run whenever that run's own earlier phases leave the
store unchanged; but its Phase-2 `edgesPruned` is always reported as 0 rather
than the orphan count the non-dry run reports. -/
theorem c7_dry_run_sleep_amended (ora : SleepOracles) (s : GraphState) (gid : Str)
    (opts : SleepOptions) (now : Millis) :
    (sleepRun ora s gid (setDryRun opts true) now).2 = s ∧
    (sleepRun ora s gid (setDryRun opts true) now).1.phase1Consolidation
      = (sleepRun ora s gid (setDryRun opts false) now).1.phase1Consolidation ∧
    (sleepRun ora s gid (setDryRun opts true) now).1.phase2Pruning.edgesPruned = 0 ∧
    ((consolidatorRun ora s gid (setDryRun opts false) now).2 = s →
      (sleepRun ora s gid (setDryRun opts true) now).1.phase2Pruning.entitiesMerged
        = (sleepRun ora s gid (setDryRun opts false) now).1.phase2Pruning.entitiesMerged ∧
      (sleepRun ora s gid (setDryRun opts true) now).1.phase2Pruning.mergedPairs
        = (sleepRun ora s gid (setDryRun opts false) now).1.phase2Pruning.mergedPairs) ∧
    ((consolidatorRun ora s gid (setDryRun opts false) now).2 = s →
      (prunerRun s gid (setDryRun opts false)).2 = s →
      (sleepRun ora s gid (setDryRun opts true) now).1.phase3Communities
        = (sleepRun ora s gid (setDryRun opts false) now).1.phase3Communities) := by
  have h1 : (if opts.consolidationEnabled.getD true = true then
      consolidatorRun ora s gid (setDryRun opts true) now
    else (emptyConsolidationReport, s)).2 = s := by
    split
    · exact (consolidatorRun_dry ora s gid opts now).1
    · rfl
  have h2 : (if opts.pruningEnabled.getD true = true then
      prunerRun s gid (setDryRun opts true)
    else (emptyPruningReport, s)).2 = s := by
    split
    · exact (prunerRun_dry s gid opts).1
    · rfl
  refine ⟨?_, ?_, ?_, ?_, ?_⟩
  · simp only [sleepRun, setDryRun_consolidationEnabled, setDryRun_pruningEnabled,
      setDryRun_communitiesEnabled]
    rw [h1, h2]
    split
    · exact (communityBuilderRun_dry ora s gid opts now).1
    · rfl
  · simp only [sleepRun, setDryRun_consolidationEnabled, setDryRun_pruningEnabled,
      setDryRun_communitiesEnabled]
    split
    · next h => exact (consolidatorRun_dry ora s gid opts now).2
    · rfl
  · simp only [sleepRun, setDryRun_consolidationEnabled, setDryRun_pruningEnabled,
      setDryRun_communitiesEnabled]
    rw [h1]
    split
    · exact (prunerRun_dry s gid opts).2.1
    · rfl
  · intro hp1
    have h1n : (if opts.consolidationEnabled.getD true = true then
        consolidatorRun ora s gid (setDryRun opts false) now
      else (emptyConsolidationReport, s)).2 = s := by
      split
      · exact hp1
      · rfl
    simp only [sleepRun, setDryRun_consolidationEnabled, setDryRun_pruningEnabled,
      setDryRun_communitiesEnabled]
    rw [h1, h1n]
    constructor
    · split
      · exact (prunerRun_dry s gid opts).2.2.2
      · rfl
    · split
      · exact (prunerRun_dry s gid opts).2.2.1
      · rfl
  · intro hp1 hp2
    have h1n : (if opts.consolidationEnabled.getD true = true then
        consolidatorRun ora s gid (setDryRun opts false) now
      else (emptyConsolidationReport, s)).2 = s := by
      split
      · exact hp1
      · rfl
    have h2n : (if opts.pruningEnabled.getD true = true then
        prunerRun s gid (setDryRun opts false)
      else (emptyPruningReport, s)).2 = s := by
      split
      · exact hp2
      · rfl
    simp only [sleepRun, setDryRun_consolidationEnabled, setDryRun_pruningEnabled,
      setDryRun_communitiesEnabled]
    rw [h1, h1n, h2, h2n]
    split
    · exact (communityBuilderRun_dry ora s gid opts now).2
    · rfl

/-- Trivial sleep collaborators for concrete sleep-run fixtures. -/
def oraC7 : SleepOracles :=
  { consolidateLLM := fun _ => none
    embed := fun _ => []
    communityLLM := fun _ =>
      { name := [], summary := [], domainHints := [], importanceScore := 0 }
    freshCommunityUuid := fun _ => [] }

/-- Default sleep options: every field unset. -/
def optsC7 : SleepOptions :=
  { dryRun := none, cooldownMinutes := none, consolidationEnabled := none,
    minEpisodes := none, maxEntities := none, pruningEnabled := none,
    similarityThreshold := none, communitiesEnabled := none, minGraphSize := none,
    minCommunitySize := none, rebuildThreshold := none }

/-- An orphaned `RELATES_TO` edge: its supporting-episode list is empty. -/
def orphanC7 : RelEdge := { edge1 with episodes := [] }

/-- Store holding only the orphaned edge. -/
def stateC7orphan : GraphState :=
  { entities := [], episodes := [], rels := [orphanC7], mentions := [],
    communities := [], hasMember := [] }

/-- The empty store. -/
def stateC7empty : GraphState :=
  { entities := [], episodes := [], rels := [], mentions := [],
    communities := [], hasMember := [] }

/-- C7 counterexample: on a store holding one orphaned relation, a dry sleep
run reports `edgesPruned = 0` while a subsequent non-dry run on the same
(unchanged) store deletes the orphan and reports `edgesPruned = 1`, so the dry
report's counts do not all equal the non-dry run's. -/
theorem c7_dry_run_counterexample :
    (sleepRun oraC7 stateC7orphan gidT (setDryRun optsC7 true) 0).2 = stateC7orphan ∧
    (sleepRun oraC7 stateC7orphan gidT (setDryRun optsC7 true) 0).1.phase2Pruning.edgesPruned
      = 0 ∧
    (sleepRun oraC7 stateC7orphan gidT (setDryRun optsC7 false) 0).1.phase2Pruning.edgesPruned
      = 1 := by
  refine ⟨?_, ?_, ?_⟩ <;>
  simp [sleepRun, setDryRun, optsC7, consolidatorRun, fetchEntityClusters,
    stateC7orphan, prunerRun, fetchCandidatePairs, scorePairs, scorePairsRaw,
    pruneGreedy, pruneOrphanedEdges, orphanRels, orphanC7, edge1, gidT,
    communityBuilderRun, builderEntities, List.mergeSort_nil]

/-- Witness for the C7 amended theorem at the empty store with default
options: the dry run leaves the store unchanged, and its merge counts and
community report match the non-dry run's. -/
theorem c7_dry_run_sleep_amended_witness :
    (sleepRun oraC7 stateC7empty gidT (setDryRun optsC7 true) 0).2 = stateC7empty ∧
    (sleepRun oraC7 stateC7empty gidT (setDryRun optsC7 true) 0).1.phase2Pruning.entitiesMerged
      = (sleepRun oraC7 stateC7empty gidT
          (setDryRun optsC7 false) 0).1.phase2Pruning.entitiesMerged ∧
    (sleepRun oraC7 stateC7empty gidT (setDryRun optsC7 true) 0).1.phase3Communities
      = (sleepRun oraC7 stateC7empty gidT
          (setDryRun optsC7 false) 0).1.phase3Communities := by
  have h := c7_dry_run_sleep_amended oraC7 stateC7empty gidT optsC7 0
  have hc : (consolidatorRun oraC7 stateC7empty gidT (setDryRun optsC7 false) 0).2
      = stateC7empty := by
    simp [consolidatorRun, fetchEntityClusters, stateC7empty, setDryRun, optsC7]
  have hp : (prunerRun stateC7empty gidT (setDryRun optsC7 false)).2 = stateC7empty := by
    simp [prunerRun, fetchCandidatePairs, scorePairs, scorePairsRaw, pruneGreedy,
      pruneOrphanedEdges, orphanRels, stateC7empty, setDryRun, optsC7,
      List.mergeSort_nil]
  exact ⟨h.1, (h.2.2.2.1 hc).1, h.2.2.2.2 hc hp⟩
